import Mathlib

namespace Collate

variable {α : Type}

/-!
# Verification of the EDGE `collate.py` disk-mode collation pipeline

This file gives a shallow embedding of the disk-mode (`optthin = 0`) branch of
`collate.py` (the `collate`, `numCheck` and `failCheck` functions) and proves
properties about it.

Modelling conventions:

* Python text is modelled as `List Char`; `str.split(sep)` (non-empty `sep`)
  is `splitOnL`.
* Python exceptions are the constructors of `PyErr`; fallible code returns
  `Except PyErr _`.
* Numeric values are `ℚ`; Python's `float(...)` on plain decimal literals is
  `parseFloatE` (exponent-free decimal strings, which is what job files hold).
* The filesystem is an input: each optional model-output file is a `FStat`
  (missing / empty / present-with-columns), mirroring the `glob` +
  `os.path.getsize` + `ascii.read` sequence in the source.
* The self-extinction attenuation `x * exp(-e)` is abstracted as a binary
  operation `att`; theorems about its numeric effect instantiate the table
  entries at `ℝ` with `fun x e => x * Real.exp (-e)`.
-/

set_option autoImplicit false

/-- Python exception values that the modelled code can raise. -/
inductive PyErr where
  | indexError (site : String)
  | keyError (key : String)
  | nameError (v : String)
  | ioError (msg : String)
  | valueError (msg : String)
deriving DecidableEq, Repr

/-- The characters of a string literal (Python text as `List Char`). -/
def chars (s : String) : List Char := s.data

/-- Python list/str subscription `l[i]` for a nonnegative index:
`IndexError` when out of range. -/
def pyIdx {β : Type} (l : List β) (i : ℕ) (site : String) : Except PyErr β :=
  match l.get? i with
  | some x => pure x
  | none => throw (.indexError site)

/-- Python `s[0]` on a string: `IndexError` on the empty string. -/
def pyFirstChar (s : List Char) (site : String) : Except PyErr Char :=
  match s with
  | [] => throw (.indexError site)
  | c :: _ => pure c

/-- Worker for `splitOnL`: scans left to right, matching `sep` greedily,
accumulating the current piece in reverse.  The fuel argument dominates the
length of the scanned text, so that the recursion is structural (and hence
kernel-reducible); `splitOnL` supplies sufficient fuel. -/
def splitOnGo (sep : List Char) : ℕ → List Char → List Char → List (List Char)
  | 0, s, acc => [acc.reverse ++ s]
  | fuel + 1, s, acc =>
      match s with
      | [] => [acc.reverse]
      | c :: rest =>
          if sep.isPrefixOf (c :: rest) then
            acc.reverse :: splitOnGo sep fuel (List.drop (sep.length - 1) rest) []
          else
            splitOnGo sep fuel rest (c :: acc)

/-- Python `s.split(sep)` for non-empty `sep`: non-overlapping matches,
left to right; always returns at least one piece. -/
def splitOnL (sep s : List Char) : List (List Char) :=
  splitOnGo sep (s.length + 1) s []

/-- `split(...)[0]`, which always exists (a split is never the empty list). -/
def headSplit (l : List (List Char)) : List Char := l.headD []

/-- Decimal digit value of a character. -/
def digitVal (c : Char) : ℕ := c.toNat - 48

/-- Value of a digit string read in base 10. -/
def decVal (ds : List Char) : ℕ := ds.foldl (fun a c => a * 10 + digitVal c) 0

/-- Python `float(...)` restricted to the literal shapes that occur in job
files: an optional sign, then digits with at most one decimal point (at least
one digit overall).  Anything else raises `ValueError`, as `float` does.
The value `a.b` is the rational `(a * 10^|b| + b) / 10^|b|`, built with
`mkRat` so that it evaluates by kernel reduction. -/
def parseFloatE (s : List Char) : Except PyErr ℚ :=
  let (sign, t) : ℤ × List Char :=
    match s with
    | '-' :: r => (-1, r)
    | '+' :: r => (1, r)
    | r => (1, r)
  let ds := t.takeWhile Char.isDigit
  let rest := t.dropWhile Char.isDigit
  match rest with
  | [] =>
      if ds.isEmpty then throw (.valueError "could not convert string to float")
      else pure (mkRat (sign * (decVal ds : ℤ)) 1)
  | '.' :: fs =>
      if fs.all Char.isDigit ∧ ¬(ds.isEmpty ∧ fs.isEmpty) then
        pure (mkRat (sign * ((decVal ds * 10 ^ fs.length + decVal fs : ℕ) : ℤ))
          (10 ^ fs.length))
      else throw (.valueError "could not convert string to float")
  | _ => throw (.valueError "could not convert string to float")

/-! ## ConfigTokenParser: the disk-mode job-file parameter extraction

Embeds the `for ind, param in enumerate(sparam)` loop of `collate`
(src/collate.py lines 246-293). -/

/-- `jobf.split(key)[num+1].split("\n")[1][0]`: the first character of the
second line of the piece following the `num+1`-st occurrence of `key`. -/
def menuChar (pieces : List (List Char)) (num : ℕ) : Except PyErr Char := do
  let p ← pyIdx pieces (num + 1) "jobfile split"
  let l1 ← pyIdx (splitOnL (chars "\n") p) 1 "menu line"
  pyFirstChar l1 "menu char"

/-- The AMAXS menu scan (src/collate.py lines 248-256): ten menu positions;
a position whose following line starts with `#` is skipped, one whose
following line starts with `s` stores that position's quoted value (a later
store overwrites an earlier one), and on any other character the value `1000`
is stored if the running value is still `0` and this is the last position. -/
def parseAMAXS (jobf : List Char) : Except PyErr ℚ := do
  let pieces := splitOnL (chars "AMAXS='") jobf
  (List.range 10).foldlM
    (fun d num => do
      let c ← menuChar pieces num
      if c = '#' then pure d
      else if c = 's' then do
        let p ← pyIdx pieces (num + 1) "jobfile split"
        parseFloatE (headSplit (splitOnL (chars "'") p))
      else if d = 0 ∧ num = 10 - 1 then pure (1000 : ℚ)
      else pure d)
    (0 : ℚ)

/-- The EPS menu scan (src/collate.py lines 258-265): seven menu positions;
`#` skips, `s` stores that position's quoted value, anything else raises
`IOError` naming the job.  (The `num != 7` conjunct is vacuous, as in the
source: `num` ranges over `0..6`.) -/
def parseEPS (jobnum : List Char) (jobf : List Char) : Except PyErr ℚ := do
  let pieces := splitOnL (chars "EPS='") jobf
  (List.range 7).foldlM
    (fun d num => do
      let c ← menuChar pieces num
      if c = '#' ∧ num ≠ 7 then pure d
      else if c = 's' then do
        let p ← pyIdx pieces (num + 1) "jobfile split"
        parseFloatE (headSplit (splitOnL (chars "'") p))
      else throw (.ioError ("COLLATE FAILED ON EPSILON VALUE. FIX JOB FILE "
          ++ String.mk jobnum)))
    (0 : ℚ)

/-- `float(jobf.split(param+"=")[1].split(".")[0])` with the `ValueError`
re-raised with a collate-specific message (TEMP and TSHOCK,
src/collate.py lines 267-271). -/
def parsePeriodParam (jobnum : List Char) (param : List Char) (jobf : List Char) :
    Except PyErr ℚ := do
  let p ← pyIdx (splitOnL (param ++ chars "=") jobf) 1 "jobfile split"
  match parseFloatE (headSplit (splitOnL (chars ".") p)) with
  | .ok q => pure q
  | .error _ => throw (.valueError ("COLLATE: MISSING . AFTER "
      ++ String.mk param ++ " VALUE, GO FIX IN JOB FILE " ++ String.mk jobnum))

/-- `float(jobf.split(param+"=")[1].split(" ")[0])` with the `ValueError`
re-raised (ALTINH, src/collate.py lines 273-277). -/
def parseSpaceParam (jobnum : List Char) (param : List Char) (jobf : List Char) :
    Except PyErr ℚ := do
  let p ← pyIdx (splitOnL (param ++ chars "=") jobf) 1 "jobfile split"
  match parseFloatE (headSplit (splitOnL (chars " ") p)) with
  | .ok q => pure q
  | .error _ => throw (.valueError ("COLLATE MISSING SPACE [ ] AFTER ALTINH VALUE, GO FIX IN JOB FILE "
      ++ String.mk jobnum))

/-- `float(jobf.split(param+"='")[1].split("'")[0])`: the generic quoted
scalar convention (src/collate.py line 280). -/
def parseQuotedParam (param : List Char) (jobf : List Char) : Except PyErr ℚ := do
  let p ← pyIdx (splitOnL (param ++ chars "='") jobf) 1 "jobfile split"
  parseFloatE (headSplit (splitOnL (chars "'") p))

/-- The per-parameter dispatch of the disk-mode parsing loop. -/
def parseParam (jobnum : List Char) (jobf : List Char) (param : List Char) :
    Except PyErr ℚ :=
  if param = chars "AMAXS" then parseAMAXS jobf
  else if param = chars "EPS" then parseEPS jobnum jobf
  else if param = chars "TEMP" ∨ param = chars "TSHOCK" then
    parsePeriodParam jobnum param jobf
  else if param = chars "ALTINH" then parseSpaceParam jobnum param jobf
  else parseQuotedParam param jobf

/-- The disk-mode parameter list `sparam` (src/collate.py lines 240-243). -/
def sparamList : List String :=
  ["MSTAR", "TSTAR", "RSTAR", "DISTANCIA", "MDOT", "ALPHA", "MUI", "RDISK",
   "AMAXS", "EPS", "WLCUT_ANGLE", "WLCUT_SCATT", "NSILCOMPOUNDS", "SILTOTABUN",
   "AMORPFRAC_OLIVINE", "AMORPFRAC_PYROXENE", "FORSTERITE_FRAC", "ENSTATITE_FRAC",
   "TEMP", "ALTINH", "TSHOCK"]

/-- The header-key rename table (src/collate.py lines 282-293). -/
def renameParam (p : String) : String :=
  if p = "AMORPFRAC_OLIVINE" then "AMORF_OL"
  else if p = "AMORPFRAC_PYROXENE" then "AMORF_PY"
  else if p = "WLCUT_ANGLE" then "WLCUT_AN"
  else if p = "WLCUT_SCATT" then "WLCUT_SC"
  else if p = "NSILCOMPOUNDS" then "NSILCOMP"
  else if p = "SILTOTABUN" then "SILTOTAB"
  else if p = "FORSTERITE_FRAC" then "FORSTERI"
  else if p = "ENSTATITE_FRAC" then "ENSTATIT"
  else if p = "DISTANCIA" then "DISTANCE"
  else p

/-- The whole disk-mode parameter-extraction loop: every `sparam` entry is
parsed in order and paired with its (renamed) header key; the first raised
exception aborts the job's parse. -/
def parseJobParams (jobnum : List Char) (jobf : List Char) :
    Except PyErr (List (String × ℚ)) := do
  let vals ← sparamList.mapM (fun p => parseParam jobnum jobf (chars p))
  pure ((sparamList.map renameParam).zip vals)

/-- `jobf.split("set labelend='")[1].split("'")[0]`
(src/collate.py line 233). -/
def getLabelend (jobf : List Char) : Except PyErr (List Char) := do
  let p ← pyIdx (splitOnL (chars "set labelend='") jobf) 1 "labelend split"
  pure (headSplit (splitOnL (chars "'") p))

instance {ε α : Type} [DecidableEq ε] [DecidableEq α] : DecidableEq (Except ε α) :=
  fun x y =>
  match x, y with
  | .ok a, .ok b =>
      if h : a = b then .isTrue (by rw [h])
      else .isFalse (fun hc => by cases hc; exact h rfl)
  | .error a, .error b =>
      if h : a = b then .isTrue (by rw [h])
      else .isFalse (fun hc => by cases hc; exact h rfl)
  | .ok _, .error _ => .isFalse (fun hc => by cases hc)
  | .error _, .ok _ => .isFalse (fun hc => by cases hc)

/-! ## ComponentDiscovery: the per-component file outcomes

Each optional model-output file is discovered with `glob` and classified by
`os.path.getsize`: no match (`IndexError` caught → missing), size `0`
(empty), or a readable file whose relevant columns are the payload.  The
columns a `present` file carries are exactly the ones the source reads. -/

/-- Discovery outcome for one component file. -/
inductive FStat (β : Type) where
  | missing
  | empty
  | present (cols : β)
deriving DecidableEq, Repr

/-- Columns read from a photosphere file (`Phot*`): `col1` (wavelength),
`col2` (flux). -/
structure PhotCols (α : Type) where
  col1 : List α
  col2 : List α
deriving DecidableEq, Repr

/-- Columns read from a wall file (`fort17*`, `data_start = 9`). -/
structure WallCols (α : Type) where
  col1 : List α
  col2 : List α
deriving DecidableEq, Repr

/-- Columns read from a disk/angle file (`angle*`, `data_start = 1`):
`col1` (wavelength), `col4` (flux), `col6` (extinction). -/
structure AngleCols (α : Type) where
  col1 : List α
  col4 : List α
  col6 : List α
deriving DecidableEq, Repr

/-- Columns read from a scattered-light file (`scatt*`, `data_start = 1`). -/
structure ScattCols (α : Type) where
  col1 : List α
  col4 : List α
deriving DecidableEq, Repr

/-- The inputs of one disk-mode assembly run: the caller-supplied `no*` and
`clob` keywords, the discovery outcome of each component file, the `rin*`
file (`none` = no glob match), and whether the destination fits file already
exists. -/
structure DiskIn (α : Type) where
  nophot : ℕ
  nowall : ℕ
  noangle : ℕ
  noscatt : ℕ
  noextinct : ℕ
  clob : ℕ
  phot : FStat (PhotCols α)
  wall : FStat (WallCols α)
  angle : FStat (AngleCols α)
  scatt : FStat (ScattCols α)
  rin : Option α
  destExists : Bool
deriving DecidableEq, Repr

/-- The mutable state of the assembly section of `collate`
(src/collate.py lines 295-441): the possibly-updated `no*` keywords, the
`failed` flag, the flat data array, the axis dictionary (in insertion order)
with its counter, and the `angle` table if one was read. -/
structure DState (α : Type) where
  nophot : ℕ
  nowall : ℕ
  noangle : ℕ
  noscatt : ℕ
  noextinct : ℕ
  failed : Bool
  dataarr : List α
  axis : List (String × ℕ)
  axis_count : ℕ
  angleLoaded : Option (AngleCols α)
deriving DecidableEq, Repr

/-- `dataarr = np.array([]); axis = {'WLAXIS':0}; axis_count = 1`
(src/collate.py lines 298-307). -/
def initState (inp : DiskIn α) : DState α :=
  { nophot := inp.nophot, nowall := inp.nowall, noangle := inp.noangle,
    noscatt := inp.noscatt, noextinct := inp.noextinct,
    failed := false, dataarr := [], axis := [("WLAXIS", 0)], axis_count := 1,
    angleLoaded := none }

/-- The five sequential stages of the assembly section. -/
inductive PipeStep where
  | phot
  | wall
  | angle
  | scatt
  | ext
deriving DecidableEq, Repr

/-- Photosphere block (src/collate.py lines 309-331): missing/empty set
`nophot = 1` and the failure flag; a present file contributes `col1` and
`col2` and one axis; a `nophot` outside `{0,1}` raises `IOError`. -/
def stepPhot (ph : FStat (PhotCols α)) (s : DState α) : Except PyErr (DState α) :=
  if s.nophot = 0 then
    match ph with
    | .missing => pure { s with nophot := 1, failed := true }
    | .present c =>
        pure { s with axis := s.axis ++ [("PHOTAXIS", s.axis_count)],
                      dataarr := s.dataarr ++ c.col1 ++ c.col2,
                      axis_count := s.axis_count + 1 }
    | .empty => pure { s with nophot := 1, failed := true }
  else if s.nophot = 1 then pure s
  else throw (.ioError "COLLATE: INVALID INPUT FOR NOPHOT KEYWORD, SHOULD BE 1 OR 0")

/-- Wall block (src/collate.py lines 336-362): like the photosphere, but the
wavelength column `col1` is contributed only when the photosphere was not
run (`nophot != 0` at this point). -/
def stepWall (wl : FStat (WallCols α)) (s : DState α) : Except PyErr (DState α) :=
  if s.nowall = 0 then
    match wl with
    | .missing => pure { s with nowall := 1, failed := true }
    | .present c =>
        pure { s with axis := s.axis ++ [("WALLAXIS", s.axis_count)],
                      dataarr := s.dataarr
                        ++ (if s.nophot ≠ 0 then c.col1 else []) ++ c.col2,
                      axis_count := s.axis_count + 1 }
    | .empty => pure { s with nowall := 1, failed := true }
  else if s.nowall = 1 then pure s
  else throw (.ioError "COLLATE: INVALID INPUT FOR NOWALL KEYWORD, SHOULD BE 1 OR 0")

/-- Disk/angle block (src/collate.py lines 367-393): contributes `col1` only
when neither photosphere nor wall was run, then `col4`; remembers the read
table for the extinction stage. -/
def stepAngle (an : FStat (AngleCols α)) (s : DState α) : Except PyErr (DState α) :=
  if s.noangle = 0 then
    match an with
    | .missing => pure { s with noangle := 1, failed := true }
    | .present c =>
        pure { s with axis := s.axis ++ [("ANGAXIS", s.axis_count)],
                      dataarr := s.dataarr
                        ++ (if s.nophot ≠ 0 ∧ s.nowall ≠ 0 then c.col1 else [])
                        ++ c.col4,
                      axis_count := s.axis_count + 1,
                      angleLoaded := some c }
    | .empty => pure { s with noangle := 1, failed := true }
  else if s.noangle = 1 then pure s
  else throw (.ioError "COLLATE: INVALID INPUT FOR NOANGLE KEYWORD, SHOULD BE 1 OR 0")

/-- Scattered-light block (src/collate.py lines 398-424). -/
def stepScatt (sc : FStat (ScattCols α)) (s : DState α) : Except PyErr (DState α) :=
  if s.noscatt = 0 then
    match sc with
    | .missing => pure { s with noscatt := 1, failed := true }
    | .present c =>
        pure { s with axis := s.axis ++ [("SCATAXIS", s.axis_count)],
                      dataarr := s.dataarr
                        ++ (if s.nophot ≠ 0 ∧ s.nowall ≠ 0 ∧ s.noangle ≠ 0
                            then c.col1 else [])
                        ++ c.col4,
                      axis_count := s.axis_count + 1 }
    | .empty => pure { s with noscatt := 1, failed := true }
  else if s.noscatt = 1 then pure s
  else throw (.ioError "COLLATE: INVALID INPUT FOR NOSCATT KEYWORD, SHOULD BE 1 OR 0")

/-- Extinction input block (src/collate.py lines 426-437): when extinction
is requested but the angle file was not run, the failure flag is set and
`noextinct` is turned off for the rest of the run; otherwise the angle
table's `col6` becomes one more axis.  (`angle` is always bound when
`noangle = 0` survives the angle block; the `nameError` branch is the
unreachable Python `NameError`.)  The invalid-keyword message names NOANGLE,
as in the source. -/
def stepExt (s : DState α) : Except PyErr (DState α) :=
  if s.noextinct = 0 then
    if s.noangle ≠ 0 then pure { s with failed := true, noextinct := 1 }
    else
      match s.angleLoaded with
      | some c =>
          pure { s with dataarr := s.dataarr ++ c.col6,
                        axis := s.axis ++ [("EXTAXIS", s.axis_count)],
                        axis_count := s.axis_count + 1 }
      | none => throw (.nameError "angle")
  else if s.noextinct = 1 then pure s
  else throw (.ioError "COLLATE: INVALID INPUT FOR NOANGLE KEYWORD, SHOULD BE 1 OR 0")

/-- Dispatcher over the five assembly stages. -/
def pipelineStep (inp : DiskIn α) : PipeStep → DState α → Except PyErr (DState α)
  | .phot => stepPhot inp.phot
  | .wall => stepWall inp.wall
  | .angle => stepAngle inp.angle
  | .scatt => stepScatt inp.scatt
  | .ext => stepExt

/-! ## SchemaAssembler: reshaping and the extinction correction -/

/-- `k` consecutive chunks of length `L` taken from `l`. -/
def chunkRows (k L : ℕ) (l : List α) : List (List α) :=
  match k with
  | 0 => []
  | k + 1 => l.take L :: chunkRows k L (l.drop L)

/-- `np.reshape(dataarr, (axis_count, len(dataarr)/axis_count))`
(src/collate.py line 441; `/` is Python-2 integer division): fails unless
the row length times `axis_count` gives back the flat length. -/
def reshapeRows (k : ℕ) (l : List α) : Except PyErr (List (List α)) :=
  if k * (l.length / k) = l.length then pure (chunkRows k (l.length / k) l)
  else throw (.valueError "total size of new array must be unchanged")

/-- `axis[key]`: Python dict lookup, `KeyError` when absent. -/
def axLookup (axis : List (String × ℕ)) (key : String) : Except PyErr ℕ :=
  match axis.find? (fun p => p.1 = key) with
  | some p => pure p.2
  | none => throw (.keyError key)

/-- Row `i` of the table (in-range in every reachable state). -/
def getRow (t : List (List α)) (i : ℕ) : List α := t.getD i []

/-- One in-place row correction
`dataarr[axis[key],:] *= np.exp(-dataarr[axis[\'EXTAXIS\'],:])`: the row at
`axis[key]` is combined elementwise with the extinction row through `att`. -/
def correctRow (att : α → α → α) (axis : List (String × ℕ)) (key : String)
    (t : List (List α)) : Except PyErr (List (List α)) := do
  let i ← axLookup axis key
  let ie ← axLookup axis "EXTAXIS"
  pure (t.set i (List.zipWith att (getRow t i) (getRow t ie)))

/-- The extinction correction (src/collate.py lines 449-453): when
`noextinct == 0`, the photosphere row (if `nophot == 0`) and then the wall
row (if `nowall == 0`) are each combined in place with the extinction row
through `att` (in the source, `row *= exp(-ext_row)`). -/
def applyExtRows (att : α → α → α) (axis : List (String × ℕ))
    (t : List (List α)) (nophot nowall noextinct : ℕ) :
    Except PyErr (List (List α)) :=
  if noextinct = 0 then
    (if nophot = 0 then correctRow att axis "PHOTAXIS" t else pure t) >>=
      fun t1 =>
        (if nowall = 0 then correctRow att axis "WALLAXIS" t1 else pure t1) >>=
          fun t2 => pure t2
  else pure t

/-- One collated disk-mode record: the numeric table, the axis tags, the
`RIN` value, and the `NOEXT`/`FAILED` header flags
(src/collate.py lines 457-478). -/
structure DRecord (α : Type) where
  table : List (List α)
  axis : List (String × ℕ)
  rin : α
  noext : Bool
  failed : Bool
deriving DecidableEq, Repr

/-- The tail of the run (src/collate.py lines 440-478): reshape, correct,
read the `rin*` file (`glob(...)[0]` raises `IndexError` when absent), and
write the record, refusing to overwrite unless `clob` is set. -/
def finishDisk (att : α → α → α) (inp : DiskIn α) (s : DState α) :
    Except PyErr (DRecord α) := do
  let t ← reshapeRows s.axis_count s.dataarr
  let t ← applyExtRows att s.axis t s.nophot s.nowall s.noextinct
  match inp.rin with
  | none => throw (.indexError "rin glob")
  | some rv =>
      if inp.destExists ∧ inp.clob = 0 then
        throw (.ioError "File exists and clobber is not set")
      else
        pure { table := t, axis := s.axis, rin := rv,
               noext := s.noextinct = 1, failed := s.failed }

/-- The whole disk-mode assembly-and-write section of `collate`
(src/collate.py lines 295-478), from the empty data array to the written
record. -/
def assembleDisk (att : α → α → α) (inp : DiskIn α) : Except PyErr (DRecord α) := do
  let s1 ← pipelineStep inp .phot (initState inp)
  let s2 ← pipelineStep inp .wall s1
  let s3 ← pipelineStep inp .angle s2
  let s4 ← pipelineStep inp .scatt s3
  let s5 ← pipelineStep inp .ext s4
  finishDisk att inp s5

/-- The whole disk-mode branch of `collate` (src/collate.py lines 216-478):
a missing job file or a `labelend` mismatch returns without a record
(`.ok none`); otherwise the parameters are parsed and the assembly runs. -/
def collateDisk (att : α → α → α) (name jobnum : List Char)
    (jobfile : Option (List Char)) (inp : DiskIn α) :
    Except PyErr (Option (List (String × ℚ) × DRecord α)) := do
  match jobfile with
  | none => pure none
  | some jobf => do
      let labelend ← getLabelend jobf
      if labelend ≠ name ++ chars "_" ++ jobnum then pure none
      else do
        let params ← parseJobParams jobnum jobf
        let r ← assembleDisk att inp
        pure (some (params, r))

/-! ## numCheck (src/collate.py lines 487-505) -/

/-- The character of a decimal digit. -/
def digitChar (d : ℕ) : Char := Char.ofNat (48 + d)

/-- Most-significant-first decimal digits, with structural fuel
(`natDigits` supplies enough fuel for the recursion `n ↦ n / 10`). -/
def natDigitsGo : ℕ → ℕ → List Char
  | 0, n => [digitChar n]
  | fuel + 1, n =>
      if n < 10 then [digitChar n]
      else natDigitsGo fuel (n / 10) ++ [digitChar (n % 10)]

/-- The decimal digit string of `n`. -/
def natDigits (n : ℕ) : List Char := natDigitsGo n n

/-- `'%0{width}d' % n` for a nonnegative `n`: the decimal digits of `n`,
left-padded with zeros to `width`. -/
def pyFormat0d (width : ℕ) (n : ℕ) : List Char :=
  let ds := natDigits n
  List.replicate (width - ds.length) '0' ++ ds

/-- `numCheck(num, high)`: numbers outside `0..9999` raise `ValueError`;
otherwise the number is rendered as 4 digits when it exceeds 999 or
`high == 1`, and as 3 digits otherwise. -/
def numCheck (num : ℤ) (high : ℕ) : Except PyErr (List Char) :=
  if num > 9999 ∨ num < 0 then
    throw (.valueError "Number too small/large for string handling!")
  else if num > 999 ∨ high = 1 then pure (pyFormat0d 4 num.toNat)
  else pure (pyFormat0d 3 num.toNat)

/-! ## failCheck (src/collate.py lines 507-579), `jobnum='all'` branch

A collated record is abstracted to its header: an association list of tags.
The `glob` enumeration is the input list.  For each file the source trie
`HDU[0].header['Failed'] == 1`, catching `KeyError`; the comparison's result
is discarded, so a file is reported exactly when the tag is present. -/

/-- One record header: tag/value pairs. -/
abbrev Header : Type := List (String × ℕ)

/-- Header lookup (FITS headers have unique tags as written by `collate`). -/
def headerLookup (h : Header) (key : String) : Option ℕ :=
  (List.find? (fun p => p.1 = key) h).map (fun p => p.2)

/-- `failCheck(name, jobnum='all')` over the matched records: keep each
record whose header carries the `FAILED` tag (whatever its value). -/
def failCheckAll (files : List Header) : List Header :=
  files.filter (fun h => (headerLookup h "FAILED").isSome)

/-! ## Spec-level descriptions (for refinement statements)

The following definitions restate, in the spec's declarative vocabulary
(§4.2-§4.5 of the specification), which components load, which axes and
columns the assembled record should have, and when the failure flag should
be set.  They are compared with the code-derived definitions above. -/

/-- A file that produced a readable table. -/
def isPresent {β : Type} : FStat β → Bool
  | .present _ => true
  | _ => false

/-- The photosphere loads when it is enabled and its file is present. -/
def photLoadedb (inp : DiskIn α) : Bool :=
  inp.nophot == 0 && isPresent inp.phot

/-- The wall loads when it is enabled and its file is present. -/
def wallLoadedb (inp : DiskIn α) : Bool :=
  inp.nowall == 0 && isPresent inp.wall

/-- The disk/angle component loads when it is enabled and its file is
present. -/
def angleLoadedb (inp : DiskIn α) : Bool :=
  inp.noangle == 0 && isPresent inp.angle

/-- The scattered-light component loads when it is enabled and its file is
present. -/
def scattLoadedb (inp : DiskIn α) : Bool :=
  inp.noscatt == 0 && isPresent inp.scatt

/-- Extinction is actually applied when it is requested and the disk/angle
component loaded (§4.4). -/
def extAppb (inp : DiskIn α) : Bool :=
  inp.noextinct == 0 && angleLoadedb inp

/-- Some component loaded. -/
def anyLoadedb (inp : DiskIn α) : Bool :=
  photLoadedb inp || wallLoadedb inp || angleLoadedb inp || scattLoadedb inp

/-- The wavelength column the photosphere supplies, if it loads. -/
def photWl (inp : DiskIn α) : Option (List α) :=
  match inp.phot with
  | .present c => if inp.nophot = 0 then some c.col1 else none
  | _ => none

/-- The wavelength column the wall supplies, if it loads. -/
def wallWl (inp : DiskIn α) : Option (List α) :=
  match inp.wall with
  | .present c => if inp.nowall = 0 then some c.col1 else none
  | _ => none

/-- The wavelength column the disk/angle file supplies, if it loads. -/
def angleWl (inp : DiskIn α) : Option (List α) :=
  match inp.angle with
  | .present c => if inp.noangle = 0 then some c.col1 else none
  | _ => none

/-- The wavelength column the scattered-light file supplies, if it loads. -/
def scattWl (inp : DiskIn α) : Option (List α) :=
  match inp.scatt with
  | .present c => if inp.noscatt = 0 then some c.col1 else none
  | _ => none

/-- §4.3's wavelength rule: the wavelength column of the *first* loaded
component in the fixed order photosphere, wall, disk/angle, scattered
light; `none` when no component loads. -/
def specFirstWl (inp : DiskIn α) : Option (List α) :=
  (photWl inp).orElse fun _ =>
    (wallWl inp).orElse fun _ =>
      (angleWl inp).orElse fun _ => scattWl inp

/-- The columns the photosphere block appends to the flat data array. -/
def photColsL (inp : DiskIn α) : List (List α) :=
  match inp.phot with
  | .present c => if inp.nophot = 0 then [c.col1, c.col2] else []
  | _ => []

/-- The columns the wall block appends (its wavelength column only when the
photosphere did not load). -/
def wallColsL (inp : DiskIn α) : List (List α) :=
  match inp.wall with
  | .present c =>
      if inp.nowall = 0 then
        (if photLoadedb inp then [] else [c.col1]) ++ [c.col2]
      else []
  | _ => []

/-- The columns the disk/angle block appends. -/
def angleColsL (inp : DiskIn α) : List (List α) :=
  match inp.angle with
  | .present c =>
      if inp.noangle = 0 then
        (if photLoadedb inp || wallLoadedb inp then [] else [c.col1]) ++ [c.col4]
      else []
  | _ => []

/-- The columns the scattered-light block appends. -/
def scattColsL (inp : DiskIn α) : List (List α) :=
  match inp.scatt with
  | .present c =>
      if inp.noscatt = 0 then
        (if photLoadedb inp || wallLoadedb inp || angleLoadedb inp then []
         else [c.col1]) ++ [c.col4]
      else []
  | _ => []

/-- The extinction column appended when extinction is applied. -/
def extColsL (inp : DiskIn α) : List (List α) :=
  match inp.angle with
  | .present c => if inp.noextinct = 0 ∧ inp.noangle = 0 then [c.col6] else []
  | _ => []

/-- All columns of the assembled table, in assembly order. -/
def colsList (inp : DiskIn α) : List (List α) :=
  photColsL inp ++ wallColsL inp ++ angleColsL inp ++ scattColsL inp ++ extColsL inp

/-- The axis names after `WLAXIS`, in the fixed processing order, one per
loaded component plus the extinction axis when applied. -/
def axisNames (inp : DiskIn α) : List String :=
  (if photLoadedb inp then ["PHOTAXIS"] else [])
    ++ (if wallLoadedb inp then ["WALLAXIS"] else [])
    ++ (if angleLoadedb inp then ["ANGAXIS"] else [])
    ++ (if scattLoadedb inp then ["SCATAXIS"] else [])
    ++ (if extAppb inp then ["EXTAXIS"] else [])

/-- Pair each name with consecutive indices starting at `k`. -/
def idxFrom (k : ℕ) : List String → List (String × ℕ)
  | [] => []
  | n :: rest => (n, k) :: idxFrom (k + 1) rest

/-- §3's AxisMap: wavelength at index 0, then each loaded component at one
past the previous index. -/
def specAxis (inp : DiskIn α) : List (String × ℕ) :=
  ("WLAXIS", 0) :: idxFrom 1 (axisNames inp)

/-- §4.5's failure flag: any enabled component whose file is missing or
empty, or extinction requested without a loaded disk/angle component. -/
def specFailed (inp : DiskIn α) : Bool :=
  (inp.nophot == 0 && !isPresent inp.phot)
    || (inp.nowall == 0 && !isPresent inp.wall)
    || (inp.noangle == 0 && !isPresent inp.angle)
    || (inp.noscatt == 0 && !isPresent inp.scatt)
    || (inp.noextinct == 0 && !angleLoadedb inp)

/-! ### Intermediate assembly states

`specState1` … `specState5` describe the `DState` after each block of the
assembly section, for keyword values in `{0,1}`; the step lemmas below show
the code's blocks reach exactly these states. -/

/-- The angle table retained for the extinction stage. -/
def loadAngle (inp : DiskIn α) : Option (AngleCols α) :=
  match inp.angle with
  | .present c => if inp.noangle = 0 then some c else none
  | _ => none

/-- Per-component name lists making up `axisNames`. -/
def names1 (inp : DiskIn α) : List String :=
  if photLoadedb inp then ["PHOTAXIS"] else []

/-- Names after the wall block. -/
def names2 (inp : DiskIn α) : List String :=
  names1 inp ++ (if wallLoadedb inp then ["WALLAXIS"] else [])

/-- Names after the disk/angle block. -/
def names3 (inp : DiskIn α) : List String :=
  names2 inp ++ (if angleLoadedb inp then ["ANGAXIS"] else [])

/-- Names after the scattered-light block. -/
def names4 (inp : DiskIn α) : List String :=
  names3 inp ++ (if scattLoadedb inp then ["SCATAXIS"] else [])

/-- Explicit form of the state after the photosphere block. -/
def specState1 (inp : DiskIn α) : DState α :=
  { nophot := if photLoadedb inp then 0 else 1,
    nowall := inp.nowall, noangle := inp.noangle, noscatt := inp.noscatt,
    noextinct := inp.noextinct,
    failed := inp.nophot == 0 && !isPresent inp.phot,
    dataarr := (photColsL inp).flatten,
    axis := ("WLAXIS", 0) :: idxFrom 1 (names1 inp),
    axis_count := 1 + (names1 inp).length,
    angleLoaded := none }

/-- Explicit form of the state after the wall block. -/
def specState2 (inp : DiskIn α) : DState α :=
  { nophot := if photLoadedb inp then 0 else 1,
    nowall := if wallLoadedb inp then 0 else 1,
    noangle := inp.noangle, noscatt := inp.noscatt,
    noextinct := inp.noextinct,
    failed := (inp.nophot == 0 && !isPresent inp.phot)
      || (inp.nowall == 0 && !isPresent inp.wall),
    dataarr := (photColsL inp ++ wallColsL inp).flatten,
    axis := ("WLAXIS", 0) :: idxFrom 1 (names2 inp),
    axis_count := 1 + (names2 inp).length,
    angleLoaded := none }

/-- Explicit form of the state after the disk/angle block. -/
def specState3 (inp : DiskIn α) : DState α :=
  { nophot := if photLoadedb inp then 0 else 1,
    nowall := if wallLoadedb inp then 0 else 1,
    noangle := if angleLoadedb inp then 0 else 1,
    noscatt := inp.noscatt, noextinct := inp.noextinct,
    failed := (inp.nophot == 0 && !isPresent inp.phot)
      || (inp.nowall == 0 && !isPresent inp.wall)
      || (inp.noangle == 0 && !isPresent inp.angle),
    dataarr := (photColsL inp ++ wallColsL inp ++ angleColsL inp).flatten,
    axis := ("WLAXIS", 0) :: idxFrom 1 (names3 inp),
    axis_count := 1 + (names3 inp).length,
    angleLoaded := loadAngle inp }

/-- Explicit form of the state after the scattered-light block. -/
def specState4 (inp : DiskIn α) : DState α :=
  { nophot := if photLoadedb inp then 0 else 1,
    nowall := if wallLoadedb inp then 0 else 1,
    noangle := if angleLoadedb inp then 0 else 1,
    noscatt := if scattLoadedb inp then 0 else 1,
    noextinct := inp.noextinct,
    failed := (inp.nophot == 0 && !isPresent inp.phot)
      || (inp.nowall == 0 && !isPresent inp.wall)
      || (inp.noangle == 0 && !isPresent inp.angle)
      || (inp.noscatt == 0 && !isPresent inp.scatt),
    dataarr := (photColsL inp ++ wallColsL inp ++ angleColsL inp
      ++ scattColsL inp).flatten,
    axis := ("WLAXIS", 0) :: idxFrom 1 (names4 inp),
    axis_count := 1 + (names4 inp).length,
    angleLoaded := loadAngle inp }

/-- Explicit form of the state after the extinction-input block. -/
def specState5 (inp : DiskIn α) : DState α :=
  { nophot := if photLoadedb inp then 0 else 1,
    nowall := if wallLoadedb inp then 0 else 1,
    noangle := if angleLoadedb inp then 0 else 1,
    noscatt := if scattLoadedb inp then 0 else 1,
    noextinct := if extAppb inp then 0 else 1,
    failed := specFailed inp,
    dataarr := (colsList inp).flatten,
    axis := specAxis inp,
    axis_count := 1 + (axisNames inp).length,
    angleLoaded := loadAngle inp }

/-! ### Column-list lemmas -/

/-- Grid-uniformity: every column of every present component file has
length `L`. -/
def uniformGrid (L : ℕ) (inp : DiskIn α) : Prop :=
  (∀ c, inp.phot = .present c → c.col1.length = L ∧ c.col2.length = L) ∧
  (∀ c, inp.wall = .present c → c.col1.length = L ∧ c.col2.length = L) ∧
  (∀ c, inp.angle = .present c →
    c.col1.length = L ∧ c.col4.length = L ∧ c.col6.length = L) ∧
  (∀ c, inp.scatt = .present c → c.col1.length = L ∧ c.col4.length = L)

/-! ### Generic per-step structure lemmas (no grid assumptions) -/

/-- The axis name a stage can add. -/
def stepAxName : PipeStep → String
  | .phot => "PHOTAXIS"
  | .wall => "WALLAXIS"
  | .angle => "ANGAXIS"
  | .scatt => "SCATAXIS"
  | .ext => "EXTAXIS"

/-- The structural invariant of the axis map within a run. -/
def AxInv (s : DState α) : Prop :=
  s.axis.map Prod.snd = List.range s.axis_count ∧
  s.axis.length = s.axis_count ∧
  s.axis.head? = some ("WLAXIS", 0)

/-! ## Claim theorems

Each claim of the specification audit is settled by one theorem below,
together with its witness (for hypothesised theorems) and, for corrected
claims, a concrete counterexample. -/

/-- A placeholder attenuation used to instantiate `att` in rational-valued
witnesses (the structural claims hold for every attenuation operation). -/
def attQ : ℚ → ℚ → ℚ := fun x _ => x

/-- Ten sample record headers, three of which carry the failure flag
(the spec's concrete `scanFailures` scenario). -/
def hdrsW : List Header :=
  [[("OBJNAME", 1)], [("FAILED", 1)], [("MSTAR", 2)],
   [("FAILED", 1), ("RIN", 3)], [("RSTAR", 0)], [("TSTAR", 1)],
   [("FAILED", 1), ("EPS", 4)], [("MDOT", 5)], [("ALPHA", 6)], [("MUI", 7)]]

/-- A job file whose `labelend` is `obj_002`. -/
def jobfC10 : List Char := chars "set labelend='obj_002'\nset MSTAR='1.0'\n"

/-- An arbitrary concrete assembly input for witnesses. -/
def inpW0 : DiskIn ℚ :=
  { nophot := 1, nowall := 1, noangle := 1, noscatt := 1, noextinct := 1,
    clob := 0, phot := .missing, wall := .missing, angle := .missing,
    scatt := .missing, rin := some 1, destExists := false }

/-- A fully-populated concrete assembly input (all components present,
extinction requested). -/
def inpW : DiskIn ℚ :=
  { nophot := 0, nowall := 0, noangle := 0, noscatt := 1, noextinct := 0,
    clob := 0,
    phot := .present ⟨[1, 2], [10, 20]⟩,
    wall := .present ⟨[1, 2], [30, 40]⟩,
    angle := .present ⟨[1, 2], [50, 60], [0, 1]⟩,
    scatt := .missing,
    rin := some 7, destExists := false }

/-- The record `collate` writes for `inpW` under the identity attenuation. -/
def recW : DRecord ℚ :=
  { table := [[1, 2], [10, 20], [30, 40], [50, 60], [0, 1]],
    axis := [("WLAXIS", 0), ("PHOTAXIS", 1), ("WALLAXIS", 2), ("ANGAXIS", 3),
      ("EXTAXIS", 4)],
    rin := 7, noext := false, failed := false }

/-- A mid-run state with the failure flag already set. -/
def sF : DState ℚ :=
  { nophot := 1, nowall := 1, noangle := 1, noscatt := 1, noextinct := 1,
    failed := true, dataarr := [], axis := [("WLAXIS", 0)], axis_count := 1,
    angleLoaded := none }

/-- A run with the photosphere absent and the wall present (the wall
supplies the wavelength column). -/
def inpC3 : DiskIn ℚ :=
  { nophot := 0, nowall := 0, noangle := 0, noscatt := 1, noextinct := 1,
    clob := 0, phot := .missing,
    wall := .present ⟨[1, 2], [30, 40]⟩,
    angle := .missing, scatt := .missing, rin := some 7, destExists := false }

/-- The record `collate` writes for `inpC3`. -/
def recC3 : DRecord ℚ :=
  { table := [[1, 2], [30, 40]], axis := [("WLAXIS", 0), ("WALLAXIS", 1)],
    rin := 7, noext := true, failed := true }

/-- The spec's concrete C5 scenario: photosphere and wall present,
disk/angle missing, extinction requested. -/
def inpC5w : DiskIn ℚ :=
  { nophot := 0, nowall := 0, noangle := 0, noscatt := 1, noextinct := 0,
    clob := 0,
    phot := .present ⟨[1, 2], [10, 20]⟩,
    wall := .present ⟨[1, 2], [30, 40]⟩,
    angle := .missing, scatt := .missing, rin := some 7, destExists := false }

/-- A run in which everything is skipped cleanly but the `rin*` file is
absent. -/
def inpC6 : DiskIn ℚ :=
  { nophot := 1, nowall := 1, noangle := 1, noscatt := 1, noextinct := 1,
    clob := 0, phot := .missing, wall := .missing, angle := .missing,
    scatt := .missing, rin := none, destExists := false }

/-- All components enabled but missing, `rin` present: every outage is
absorbed into the failure flag. -/
def inpC6w : DiskIn ℚ :=
  { nophot := 0, nowall := 0, noangle := 0, noscatt := 0, noextinct := 0,
    clob := 0, phot := .missing, wall := .missing, angle := .missing,
    scatt := .missing, rin := some 2, destExists := false }

/-- The axis map of a run with photosphere and disk loaded (no wall). -/
def axC4 : List (String × ℕ) :=
  [("WLAXIS", 0), ("PHOTAXIS", 1), ("ANGAXIS", 2), ("EXTAXIS", 3)]

/-- A table whose photosphere sample is `0` while its extinction value is
`1`. -/
def tC4 : List (List ℝ) := [[1], [0], [2], [1]]

/-- A concrete corrected run for the C4 witness. -/
def axC4w : List (String × ℕ) :=
  [("WLAXIS", 0), ("PHOTAXIS", 1), ("WALLAXIS", 2), ("EXTAXIS", 3)]

/-- Its table. -/
def tC4w : List (List ℝ) := [[9], [2], [3], [0]]

/-- An axis map with a wall but no photosphere, for the C4 witness's
photosphere-absent instance. -/
def axC4p : List (String × ℕ) :=
  [("WLAXIS", 0), ("WALLAXIS", 1), ("EXTAXIS", 2)]

/-! ### C1: the comment-toggled menu encoding -/

/-- The seven candidate value strings of an EPS menu. -/
def epsMenuValues : List (List Char) :=
  [chars "0.0001", chars "0.001", chars "0.01", chars "0.1", chars "0.3",
   chars "0.5", chars "1.0"]

/-- The rational values of the EPS candidates. -/
def epsMenuQ : List ℚ :=
  [mkRat 1 10000, mkRat 1 1000, mkRat 1 100, mkRat 1 10, mkRat 3 10,
   mkRat 1 2, 1]

/-- One EPS menu line, commented out unless active. -/
def epsLine (active : Bool) (v : List Char) : List Char :=
  (if active then chars "set EPS='" else chars "#set EPS='") ++ v ++ chars "'\n"

/-- A job-file fragment whose EPS menu's activity pattern is given by the
bits of `p` (bit `i` set ⟺ candidate `i` uncommented). -/
def mkEpsJobf (p : ℕ) : List Char :=
  chars "set MSTAR='1.0'\n"
    ++ List.flatten ((List.range 7).map
        (fun i => epsLine (p.testBit i) (epsMenuValues.getD i [])))
    ++ chars "#end\n"

/-- The value the EPS scan actually stores for activity pattern `p`: the
candidate *preceding* the last active one (`0` when no candidate beyond the
first is active), because the scan tests each menu position against the
*following* line's first character. -/
def epsSelected (p : ℕ) : ℚ :=
  (List.range 7).foldl
    (fun d i => if 1 ≤ i ∧ p.testBit i then epsMenuQ.getD (i - 1) 0 else d) 0

/-- The ten candidate value strings of an AMAXS menu (the last is the `1mm`
sentinel). -/
def amaxMenuValues : List (List Char) :=
  [chars "0.05", chars "0.1", chars "0.25", chars "0.5", chars "1.0",
   chars "2.0", chars "3.0", chars "4.0", chars "5.0", chars "1mm"]

/-- The rational values of the first nine AMAXS candidates. -/
def amaxMenuQ : List ℚ :=
  [mkRat 5 100, mkRat 1 10, mkRat 25 100, mkRat 1 2, 1, 2, 3, 4, 5]

/-- One AMAXS menu line. -/
def amaxLine (active : Bool) (v : List Char) : List Char :=
  (if active then chars "set AMAXS='" else chars "#set AMAXS='")
    ++ v ++ chars "'\n"

/-- A job-file fragment whose AMAXS menu's activity pattern is the bits of
`p`. -/
def mkAmaxJobf (p : ℕ) : List Char :=
  chars "set MSTAR='1.0'\n"
    ++ List.flatten ((List.range 10).map
        (fun i => amaxLine (p.testBit i) (amaxMenuValues.getD i [])))
    ++ chars "#end\n"

/-- The value the AMAXS scan stores for pattern `p` (same follower-line
off-by-one as EPS; the `1mm` sentinel line's own value is never parsed). -/
def amaxSelected (p : ℕ) : ℚ :=
  (List.range 10).foldl
    (fun d i => if 1 ≤ i ∧ p.testBit i then amaxMenuQ.getD (i - 1) 0 else d) 0

/-! ### Utility lemmas -/

theorem idxFrom_append (k : ℕ) (a b : List String) :
    idxFrom k (a ++ b) = idxFrom k a ++ idxFrom (k + a.length) b := by
  induction a generalizing k with
  | nil => simp [idxFrom]
  | cons x xs ih =>
      rw [List.cons_append, idxFrom, idxFrom, ih (k + 1), List.cons_append,
        List.length_cons]
      have h2 : k + 1 + xs.length = k + (xs.length + 1) := by omega
      rw [h2]

theorem nat_le_one_cases {n : ℕ} (h : n ≤ 1) : n = 0 ∨ n = 1 := by omega

theorem exceptPure_eq {ε β : Type} (b : β) : (pure b : Except ε β) = .ok b := rfl

theorem exceptBind_ok {ε β γ : Type} (b : β) (f : β → Except ε γ) :
    (Except.ok b : Except ε β) >>= f = f b := rfl

theorem exceptBind_err {ε β γ : Type} (e : ε) (f : β → Except ε γ) :
    (Except.error e : Except ε β) >>= f = .error e := rfl

/-! ### Step lemmas: each assembly block reaches its explicit state -/

theorem stepPhot_spec (inp : DiskIn α) (hp : inp.nophot ≤ 1) :
    stepPhot inp.phot (initState inp) = .ok (specState1 inp) := by
  rcases nat_le_one_cases hp with h | h <;>
    cases hph : inp.phot <;>
      simp [stepPhot, initState, specState1, h, hph, photLoadedb, isPresent,
        photColsL, names1, idxFrom, exceptPure_eq]

theorem stepWall_spec (inp : DiskIn α) (hw : inp.nowall ≤ 1) :
    stepWall inp.wall (specState1 inp) = .ok (specState2 inp) := by
  rcases nat_le_one_cases hw with h | h <;>
    cases hwl : inp.wall <;>
      cases hpl : photLoadedb inp <;>
        simp [stepWall, specState1, specState2, h, hwl, hpl, wallLoadedb,
          isPresent, wallColsL, names2, idxFrom_append, idxFrom, exceptPure_eq] <;>
        omega

theorem stepAngle_spec (inp : DiskIn α) (ha : inp.noangle ≤ 1) :
    stepAngle inp.angle (specState2 inp) = .ok (specState3 inp) := by
  rcases nat_le_one_cases ha with h | h <;>
    cases han : inp.angle <;>
      cases hpl : photLoadedb inp <;>
        cases hwl : wallLoadedb inp <;>
          simp [stepAngle, specState2, specState3, h, han, hpl, hwl,
            angleLoadedb, isPresent, angleColsL, names3, idxFrom_append,
            idxFrom, loadAngle, exceptPure_eq] <;>
          omega

theorem stepScatt_spec (inp : DiskIn α) (hs : inp.noscatt ≤ 1) :
    stepScatt inp.scatt (specState3 inp) = .ok (specState4 inp) := by
  rcases nat_le_one_cases hs with h | h <;>
    cases hsc : inp.scatt <;>
      cases hpl : photLoadedb inp <;>
        cases hwl : wallLoadedb inp <;>
          cases hal : angleLoadedb inp <;>
            simp [stepScatt, specState3, specState4, h, hsc, hpl, hwl, hal,
              scattLoadedb, isPresent, scattColsL, names4, idxFrom_append,
              idxFrom, loadAngle, exceptPure_eq] <;>
            omega

theorem stepExt_spec (inp : DiskIn α) (he : inp.noextinct ≤ 1) :
    stepExt (specState4 inp) = .ok (specState5 inp) := by
  rcases nat_le_one_cases he with h | h <;>
    cases han : inp.angle <;>
      by_cases hna : inp.noangle = 0 <;>
        cases hpl : photLoadedb inp <;>
          cases hwl : wallLoadedb inp <;>
            cases hsl : scattLoadedb inp <;>
              simp [stepExt, specState4, specState5, h, han, hna, hpl, hwl,
                hsl, angleLoadedb, isPresent, extAppb, extColsL, colsList,
                specFailed, axisNames, specAxis, names1, names2, names3,
                names4, idxFrom_append, idxFrom, loadAngle, exceptPure_eq]

/-! ### Reshape lemmas -/

theorem chunkRows_length (k L : ℕ) (l : List α) :
    (chunkRows k L l).length = k := by
  induction k generalizing l with
  | zero => rfl
  | succ k ih => simp [chunkRows, ih]

theorem flatten_length_uniform (L : ℕ) (cols : List (List α))
    (h : ∀ c ∈ cols, c.length = L) :
    cols.flatten.length = cols.length * L := by
  induction cols with
  | nil => simp
  | cons c cs ih =>
      simp only [List.flatten_cons, List.length_append, List.length_cons]
      rw [h c (by simp), ih (fun d hd => h d (by simp [hd]))]
      ring

theorem chunkRows_flatten (L : ℕ) (cols : List (List α))
    (h : ∀ c ∈ cols, c.length = L) :
    chunkRows cols.length L cols.flatten = cols := by
  induction cols with
  | nil => rfl
  | cons c cs ih =>
      simp only [List.length_cons, List.flatten_cons, chunkRows]
      have hc : c.length = L := h c (by simp)
      rw [← hc, List.take_left, List.drop_left, hc]
      rw [ih (fun d hd => h d (by simp [hd]))]

theorem reshapeRows_flatten (L : ℕ) (cols : List (List α))
    (h : ∀ c ∈ cols, c.length = L) (hk : cols ≠ []) :
    reshapeRows cols.length cols.flatten = .ok cols := by
  have hpos : 0 < cols.length := List.length_pos.mpr hk
  have hlen := flatten_length_uniform L cols h
  unfold reshapeRows
  rw [hlen, Nat.mul_div_cancel_left L hpos]
  simp [chunkRows_flatten L cols h, exceptPure_eq]

theorem reshapeRows_empty : reshapeRows 1 ([] : List α) = .ok [[]] := by
  simp [reshapeRows, chunkRows, exceptPure_eq]

theorem colsList_uniform {L : ℕ} {inp : DiskIn α} (h : uniformGrid L inp) :
    ∀ c ∈ colsList inp, c.length = L := by
  obtain ⟨hp, hw, ha, hs⟩ := h
  intro c hc
  simp only [colsList, List.mem_append] at hc
  rcases hc with ((((hc | hc) | hc) | hc) | hc)
  · unfold photColsL at hc
    cases hph : inp.phot <;> rw [hph] at hc <;> simp at hc
    obtain ⟨-, hc⟩ := hc
    rcases hc with rfl | rfl
    · exact (hp _ hph).1
    · exact (hp _ hph).2
  · unfold wallColsL at hc
    cases hwl : inp.wall <;> rw [hwl] at hc <;> simp at hc
    obtain ⟨-, hc⟩ := hc
    rcases hc with ⟨-, rfl⟩ | rfl
    · exact (hw _ hwl).1
    · exact (hw _ hwl).2
  · unfold angleColsL at hc
    cases han : inp.angle <;> rw [han] at hc <;> simp at hc
    obtain ⟨-, hc⟩ := hc
    rcases hc with ⟨-, rfl⟩ | rfl
    · exact (ha _ han).1
    · exact (ha _ han).2.1
  · unfold scattColsL at hc
    cases hsc : inp.scatt <;> rw [hsc] at hc <;> simp at hc
    obtain ⟨-, hc⟩ := hc
    rcases hc with ⟨-, rfl⟩ | rfl
    · exact (hs _ hsc).1
    · exact (hs _ hsc).2
  · unfold extColsL at hc
    cases han : inp.angle <;> rw [han] at hc <;> simp at hc
    obtain ⟨-, -, rfl⟩ := hc
    exact (ha _ han).2.2

/-! ### Loaded-component content lemmas -/

theorem photColsL_not_loaded {inp : DiskIn α} (h : photLoadedb inp = false) :
    photColsL inp = [] := by
  unfold photColsL
  unfold photLoadedb isPresent at h
  cases hph : inp.phot <;> rw [hph] at h <;> simp_all

theorem wallColsL_not_loaded {inp : DiskIn α} (h : wallLoadedb inp = false) :
    wallColsL inp = [] := by
  unfold wallColsL
  unfold wallLoadedb isPresent at h
  cases hwl : inp.wall <;> rw [hwl] at h <;> simp_all

theorem angleColsL_not_loaded {inp : DiskIn α} (h : angleLoadedb inp = false) :
    angleColsL inp = [] := by
  unfold angleColsL
  unfold angleLoadedb isPresent at h
  cases han : inp.angle <;> rw [han] at h <;> simp_all

theorem scattColsL_not_loaded {inp : DiskIn α} (h : scattLoadedb inp = false) :
    scattColsL inp = [] := by
  unfold scattColsL
  unfold scattLoadedb isPresent at h
  cases hsc : inp.scatt <;> rw [hsc] at h <;> simp_all

theorem extColsL_not_app {inp : DiskIn α} (h : extAppb inp = false) :
    extColsL inp = [] := by
  unfold extColsL
  unfold extAppb angleLoadedb isPresent at h
  cases han : inp.angle <;> rw [han] at h <;> simp_all

theorem photColsL_length {inp : DiskIn α} :
    (photColsL inp).length = if photLoadedb inp then 2 else 0 := by
  unfold photColsL photLoadedb isPresent
  cases inp.phot <;> by_cases h : inp.nophot = 0 <;> simp [h]

theorem wallColsL_length {inp : DiskIn α} :
    (wallColsL inp).length
      = if wallLoadedb inp then (if photLoadedb inp then 1 else 2) else 0 := by
  unfold wallColsL wallLoadedb isPresent
  cases inp.wall <;> by_cases h : inp.nowall = 0 <;>
    cases hpl : photLoadedb inp <;> simp [h, hpl]

theorem angleColsL_length {inp : DiskIn α} :
    (angleColsL inp).length
      = if angleLoadedb inp then
          (if photLoadedb inp || wallLoadedb inp then 1 else 2) else 0 := by
  unfold angleColsL angleLoadedb isPresent
  cases inp.angle <;> by_cases h : inp.noangle = 0 <;>
    cases hc : (photLoadedb inp || wallLoadedb inp) <;> simp [h, hc]

theorem scattColsL_length {inp : DiskIn α} :
    (scattColsL inp).length
      = if scattLoadedb inp then
          (if photLoadedb inp || wallLoadedb inp || angleLoadedb inp then 1 else 2)
        else 0 := by
  unfold scattColsL scattLoadedb isPresent
  cases inp.scatt <;> by_cases h : inp.noscatt = 0 <;>
    cases hc : (photLoadedb inp || wallLoadedb inp || angleLoadedb inp) <;>
      simp [h, hc]

theorem extColsL_length {inp : DiskIn α} :
    (extColsL inp).length = if extAppb inp then 1 else 0 := by
  unfold extColsL extAppb angleLoadedb isPresent
  cases inp.angle <;> by_cases h : inp.noangle = 0 <;>
    by_cases he : inp.noextinct = 0 <;> simp [h, he]

theorem axisNames_length {inp : DiskIn α} :
    (axisNames inp).length
      = (if photLoadedb inp then 1 else 0) + (if wallLoadedb inp then 1 else 0)
        + (if angleLoadedb inp then 1 else 0) + (if scattLoadedb inp then 1 else 0)
        + (if extAppb inp then 1 else 0) := by
  unfold axisNames
  cases photLoadedb inp <;> cases wallLoadedb inp <;> cases angleLoadedb inp <;>
    cases scattLoadedb inp <;> cases extAppb inp <;> simp

theorem extAppb_angle {inp : DiskIn α} (h : extAppb inp = true) :
    angleLoadedb inp = true := by
  unfold extAppb at h
  exact (Bool.and_eq_true_iff.mp h).2

theorem colsList_length_loaded {inp : DiskIn α} (h : anyLoadedb inp = true) :
    (colsList inp).length = 1 + (axisNames inp).length := by
  have hext := @extAppb_angle α inp
  unfold anyLoadedb at h
  simp only [colsList, List.length_append, photColsL_length, wallColsL_length,
    angleColsL_length, scattColsL_length, extColsL_length, axisNames_length]
  cases hp : photLoadedb inp <;> cases hw : wallLoadedb inp <;>
    cases ha : angleLoadedb inp <;> cases hs : scattLoadedb inp <;>
      cases he : extAppb inp <;> simp_all

theorem colsList_empty {inp : DiskIn α} (h : anyLoadedb inp = false) :
    colsList inp = [] ∧ axisNames inp = [] := by
  unfold anyLoadedb at h
  simp only [Bool.or_eq_false_iff] at h
  obtain ⟨⟨⟨hp, hw⟩, ha⟩, hs⟩ := h
  have he : extAppb inp = false := by
    cases hev : extAppb inp
    · rfl
    · rw [extAppb_angle hev] at ha
      cases ha
  refine ⟨?_, ?_⟩
  · simp [colsList, photColsL_not_loaded hp, wallColsL_not_loaded hw,
      angleColsL_not_loaded ha, scattColsL_not_loaded hs, extColsL_not_app he]
  · simp [axisNames, hp, hw, ha, hs, he]

theorem specFirstWl_none {inp : DiskIn α} (h : anyLoadedb inp = false) :
    specFirstWl inp = none := by
  unfold anyLoadedb at h
  simp only [Bool.or_eq_false_iff] at h
  obtain ⟨⟨⟨hp, hw⟩, ha⟩, hs⟩ := h
  unfold specFirstWl photWl wallWl angleWl scattWl
  unfold photLoadedb isPresent at hp
  unfold wallLoadedb isPresent at hw
  unfold angleLoadedb isPresent at ha
  unfold scattLoadedb isPresent at hs
  cases hph : inp.phot <;> rw [hph] at hp <;>
    cases hwl : inp.wall <;> rw [hwl] at hw <;>
      cases han : inp.angle <;> rw [han] at ha <;>
        cases hsc : inp.scatt <;> rw [hsc] at hs <;>
          simp_all [Option.orElse]

theorem photLoaded_present {inp : DiskIn α} (h : photLoadedb inp = true) :
    ∃ c, inp.phot = .present c ∧ inp.nophot = 0 := by
  unfold photLoadedb isPresent at h
  cases hph : inp.phot <;> rw [hph] at h <;> simp_all

theorem wallLoaded_present {inp : DiskIn α} (h : wallLoadedb inp = true) :
    ∃ c, inp.wall = .present c ∧ inp.nowall = 0 := by
  unfold wallLoadedb isPresent at h
  cases hwl : inp.wall <;> rw [hwl] at h <;> simp_all

theorem angleLoaded_present {inp : DiskIn α} (h : angleLoadedb inp = true) :
    ∃ c, inp.angle = .present c ∧ inp.noangle = 0 := by
  unfold angleLoadedb isPresent at h
  cases han : inp.angle <;> rw [han] at h <;> simp_all

theorem scattLoaded_present {inp : DiskIn α} (h : scattLoadedb inp = true) :
    ∃ c, inp.scatt = .present c ∧ inp.noscatt = 0 := by
  unfold scattLoadedb isPresent at h
  cases hsc : inp.scatt <;> rw [hsc] at h <;> simp_all

theorem photWl_none {inp : DiskIn α} (h : photLoadedb inp = false) :
    photWl inp = none := by
  unfold photWl
  unfold photLoadedb isPresent at h
  cases hph : inp.phot <;> rw [hph] at h <;> simp_all

theorem wallWl_none {inp : DiskIn α} (h : wallLoadedb inp = false) :
    wallWl inp = none := by
  unfold wallWl
  unfold wallLoadedb isPresent at h
  cases hwl : inp.wall <;> rw [hwl] at h <;> simp_all

theorem angleWl_none {inp : DiskIn α} (h : angleLoadedb inp = false) :
    angleWl inp = none := by
  unfold angleWl
  unfold angleLoadedb isPresent at h
  cases han : inp.angle <;> rw [han] at h <;> simp_all

theorem colsList_head_loaded {inp : DiskIn α} (h : anyLoadedb inp = true) :
    ∃ w, specFirstWl inp = some w ∧ (colsList inp).head? = some w := by
  unfold anyLoadedb at h
  unfold specFirstWl
  simp only [colsList]
  cases hp : photLoadedb inp
  · rw [photColsL_not_loaded hp, List.nil_append, photWl_none hp]
    cases hw : wallLoadedb inp
    · rw [wallColsL_not_loaded hw, List.nil_append, wallWl_none hw]
      cases ha : angleLoadedb inp
      · rw [angleColsL_not_loaded ha, List.nil_append, angleWl_none ha]
        cases hs : scattLoadedb inp
        · rw [hp, hw, ha, hs] at h
          cases h
        · obtain ⟨c, hsc, hns⟩ := scattLoaded_present hs
          refine ⟨c.col1, ?_, ?_⟩
          · simp [Option.orElse, scattWl, hsc, hns]
          · simp [scattColsL, hsc, hns, hp, hw, ha]
      · obtain ⟨c, han, hna⟩ := angleLoaded_present ha
        refine ⟨c.col1, ?_, ?_⟩
        · simp [Option.orElse, angleWl, han, hna]
        · simp [angleColsL, han, hna, hp, hw]
    · obtain ⟨c, hwl, hnw⟩ := wallLoaded_present hw
      refine ⟨c.col1, ?_, ?_⟩
      · simp [Option.orElse, wallWl, hwl, hnw]
      · simp [wallColsL, hwl, hnw, hp]
  · obtain ⟨c, hph, hnp⟩ := photLoaded_present hp
    refine ⟨c.col1, ?_, ?_⟩
    · simp [Option.orElse, photWl, hph, hnp]
    · simp [photColsL, hph, hnp]

/-! ### Axis-lookup lemmas -/

theorem idxFrom_length (k : ℕ) (names : List String) :
    (idxFrom k names).length = names.length := by
  induction names generalizing k with
  | nil => rfl
  | cons n rest ih => simp [idxFrom, ih]

theorem idxFrom_find? (k : ℕ) (names : List String) (key : String)
    (h : key ∈ names) :
    ∃ v, (idxFrom k names).find? (fun p => p.1 = key) = some (key, v) ∧ k ≤ v := by
  induction names generalizing k with
  | nil => cases h
  | cons n rest ih =>
      by_cases hn : n = key
      · subst hn
        exact ⟨k, by simp [idxFrom, List.find?], le_refl k⟩
      · have hmem : key ∈ rest := by
          rcases List.mem_cons.mp h with h1 | h1
          · exact absurd h1.symm hn
          · exact h1
        obtain ⟨v, hv, hkv⟩ := ih (k + 1) hmem
        refine ⟨v, ?_, by omega⟩
        simp [idxFrom, List.find?, hn, hv]

theorem axLookup_specAxis {inp : DiskIn α} {key : String}
    (hw : key ≠ "WLAXIS") (h : key ∈ axisNames inp) :
    ∃ v, axLookup (specAxis inp) key = .ok v ∧ 1 ≤ v := by
  obtain ⟨v, hv, hkv⟩ := idxFrom_find? 1 (axisNames inp) key h
  refine ⟨v, ?_, hkv⟩
  unfold axLookup specAxis
  have hne : ¬("WLAXIS" = key) := fun hc => hw hc.symm
  simp [List.find?, hne, hv, exceptPure_eq]

theorem head?_set_of_pos {l : List (List α)} {i : ℕ} (h : 1 ≤ i) (a : List α) :
    (l.set i a).head? = l.head? := by
  obtain ⟨n, rfl⟩ : ∃ n, i = n + 1 := ⟨i - 1, by omega⟩
  cases l with
  | nil => rfl
  | cons x xs => rfl

/-! ### Extinction-correction behavior -/

theorem correctRow_length {att : α → α → α} {axis : List (String × ℕ)}
    {key : String} {t t' : List (List α)}
    (h : correctRow att axis key t = .ok t') : t'.length = t.length := by
  unfold correctRow at h
  cases hi : axLookup axis key with
  | error e =>
      rw [hi, exceptBind_err] at h
      cases h
  | ok i =>
      rw [hi, exceptBind_ok] at h
      cases hie : axLookup axis "EXTAXIS" with
      | error e =>
          rw [hie, exceptBind_err] at h
          cases h
      | ok ie =>
          rw [hie, exceptBind_ok, exceptPure_eq] at h
          cases h
          simp

theorem correctRow_head {att : α → α → α} {axis : List (String × ℕ)}
    {key : String} {t t' : List (List α)}
    (h : correctRow att axis key t = .ok t')
    (hk : ∀ v, axLookup axis key = .ok v → 1 ≤ v) : t'.head? = t.head? := by
  unfold correctRow at h
  cases hi : axLookup axis key with
  | error e =>
      rw [hi, exceptBind_err] at h
      cases h
  | ok i =>
      rw [hi, exceptBind_ok] at h
      cases hie : axLookup axis "EXTAXIS" with
      | error e =>
          rw [hie, exceptBind_err] at h
          cases h
      | ok ie =>
          rw [hie, exceptBind_ok, exceptPure_eq] at h
          cases h
          exact head?_set_of_pos (hk _ hi) _

theorem correctRow_ok {att : α → α → α} {axis : List (String × ℕ)}
    {key : String} {i ie : ℕ} (t : List (List α))
    (hi : axLookup axis key = .ok i) (hie : axLookup axis "EXTAXIS" = .ok ie) :
    correctRow att axis key t
      = .ok (t.set i (List.zipWith att (getRow t i) (getRow t ie))) := by
  unfold correctRow
  rw [hi, exceptBind_ok, hie, exceptBind_ok]
  rfl

theorem condCorrect_length {att : α → α → α} {axis : List (String × ℕ)}
    {key : String} {c : Prop} [Decidable c] {t t1 : List (List α)}
    (h : (if c then correctRow att axis key t else pure t) = .ok t1) :
    t1.length = t.length := by
  by_cases hc : c
  · rw [if_pos hc] at h
    exact correctRow_length h
  · rw [if_neg hc, exceptPure_eq] at h
    cases h
    rfl

theorem condCorrect_head {att : α → α → α} {axis : List (String × ℕ)}
    {key : String} {c : Prop} [Decidable c] {t t1 : List (List α)}
    (h : (if c then correctRow att axis key t else pure t) = .ok t1)
    (hk : ∀ v, axLookup axis key = .ok v → 1 ≤ v) : t1.head? = t.head? := by
  by_cases hc : c
  · rw [if_pos hc] at h
    exact correctRow_head h hk
  · rw [if_neg hc, exceptPure_eq] at h
    cases h
    rfl

theorem applyExtRows_eval {att : α → α → α} {axis : List (String × ℕ)}
    {t b1 b2 : List (List α)} {np nw : ℕ}
    (h1 : (if np = 0 then correctRow att axis "PHOTAXIS" t else pure t) = .ok b1)
    (h2 : (if nw = 0 then correctRow att axis "WALLAXIS" b1 else pure b1) = .ok b2) :
    applyExtRows att axis t np nw 0 = .ok b2 := by
  unfold applyExtRows
  rw [if_pos rfl, h1, exceptBind_ok, h2, exceptBind_ok]
  rfl

theorem applyExtRows_length {att : α → α → α} {axis : List (String × ℕ)}
    {t t' : List (List α)} {np nw ne : ℕ}
    (h : applyExtRows att axis t np nw ne = .ok t') : t'.length = t.length := by
  unfold applyExtRows at h
  by_cases hne : ne = 0
  · rw [if_pos hne] at h
    cases hb1 : (if np = 0 then correctRow att axis "PHOTAXIS" t else pure t) with
    | error e =>
        rw [hb1, exceptBind_err] at h
        cases h
    | ok t1 =>
        rw [hb1, exceptBind_ok] at h
        cases hb2 : (if nw = 0 then correctRow att axis "WALLAXIS" t1
            else pure t1) with
        | error e =>
            rw [hb2, exceptBind_err] at h
            cases h
        | ok t2 =>
            rw [hb2, exceptBind_ok, exceptPure_eq] at h
            cases h
            rw [condCorrect_length hb2, condCorrect_length hb1]
  · rw [if_neg hne, exceptPure_eq] at h
    cases h
    rfl

theorem applyExtRows_head {att : α → α → α} {axis : List (String × ℕ)}
    {t t' : List (List α)} {np nw ne : ℕ}
    (h : applyExtRows att axis t np nw ne = .ok t')
    (hp : ∀ v, axLookup axis "PHOTAXIS" = .ok v → 1 ≤ v)
    (hw : ∀ v, axLookup axis "WALLAXIS" = .ok v → 1 ≤ v) :
    t'.head? = t.head? := by
  unfold applyExtRows at h
  by_cases hne : ne = 0
  · rw [if_pos hne] at h
    cases hb1 : (if np = 0 then correctRow att axis "PHOTAXIS" t else pure t) with
    | error e =>
        rw [hb1, exceptBind_err] at h
        cases h
    | ok t1 =>
        rw [hb1, exceptBind_ok] at h
        cases hb2 : (if nw = 0 then correctRow att axis "WALLAXIS" t1
            else pure t1) with
        | error e =>
            rw [hb2, exceptBind_err] at h
            cases h
        | ok t2 =>
            rw [hb2, exceptBind_ok, exceptPure_eq] at h
            cases h
            rw [condCorrect_head hb2 hw, condCorrect_head hb1 hp]
  · rw [if_neg hne, exceptPure_eq] at h
    cases h
    rfl

theorem idxFrom_find?_ge (k : ℕ) (names : List String)
    (p : String × ℕ → Bool) (pr : String × ℕ)
    (h : (idxFrom k names).find? p = some pr) : k ≤ pr.2 := by
  induction names generalizing k with
  | nil => cases h
  | cons n rest ih =>
      rw [idxFrom] at h
      by_cases hp : p (n, k)
      · rw [List.find?_cons_of_pos _ hp] at h
        cases h
        simp
      · rw [List.find?_cons_of_neg _ hp] at h
        have := ih (k + 1) h
        omega

theorem axLookup_specAxis_ge {inp : DiskIn α} {key : String} {v : ℕ}
    (hkey : key ≠ "WLAXIS") (h : axLookup (specAxis inp) key = .ok v) :
    1 ≤ v := by
  unfold axLookup specAxis at h
  have hne : ¬(("WLAXIS", 0) : String × ℕ).1 = key := fun hc => hkey hc.symm
  rw [List.find?_cons_of_neg _ (by simpa using hne)] at h
  cases hf : List.find? (fun p => decide (p.1 = key)) (idxFrom 1 (axisNames inp)) <;>
    rw [hf] at h
  · cases h
  · cases h
    exact idxFrom_find?_ge 1 _ _ _ hf

theorem applyExtRows_spec (att : α → α → α) (inp : DiskIn α)
    (t : List (List α)) :
    ∃ t', applyExtRows att (specAxis inp) t (if photLoadedb inp then 0 else 1)
        (if wallLoadedb inp then 0 else 1) (if extAppb inp then 0 else 1)
        = .ok t' ∧
      t'.length = t.length ∧ t'.head? = t.head? ∧
      (extAppb inp = false → t' = t) := by
  cases he : extAppb inp
  · refine ⟨t, ?_, rfl, rfl, fun _ => rfl⟩
    simp [applyExtRows, exceptPure_eq]
  · simp only [he, if_true]
    have hee : "EXTAXIS" ∈ axisNames inp := by simp [axisNames, he]
    obtain ⟨ve, hve, hkve⟩ := axLookup_specAxis (by decide) hee
    have hb1 : ∃ b1, (if (if photLoadedb inp then 0 else 1) = 0 then
        correctRow att (specAxis inp) "PHOTAXIS" t else pure t) = .ok b1 := by
      cases hp : photLoadedb inp
      · exact ⟨t, by simp [exceptPure_eq]⟩
      · have hpm : "PHOTAXIS" ∈ axisNames inp := by simp [axisNames, hp]
        obtain ⟨vp, hvp, -⟩ := axLookup_specAxis (by decide) hpm
        exact ⟨_, by simp only [if_true, if_pos]; exact correctRow_ok t hvp hve⟩
    obtain ⟨b1, hb1⟩ := hb1
    have hb2 : ∃ b2, (if (if wallLoadedb inp then 0 else 1) = 0 then
        correctRow att (specAxis inp) "WALLAXIS" b1 else pure b1) = .ok b2 := by
      cases hw : wallLoadedb inp
      · exact ⟨b1, by simp [exceptPure_eq]⟩
      · have hwm : "WALLAXIS" ∈ axisNames inp := by simp [axisNames, hw]
        obtain ⟨vw, hvw, -⟩ := axLookup_specAxis (by decide) hwm
        exact ⟨_, by simp only [if_true, if_pos]; exact correctRow_ok b1 hvw hve⟩
    obtain ⟨b2, hb2⟩ := hb2
    have heq := applyExtRows_eval hb1 hb2
    refine ⟨b2, heq, applyExtRows_length heq, ?_, fun hc => by cases hc⟩
    exact applyExtRows_head heq
      (fun v hv => axLookup_specAxis_ge (by decide) hv)
      (fun v hv => axLookup_specAxis_ge (by decide) hv)

/-! ### The main characterization of a disk-mode run -/

/-! ### The main characterization of a disk-mode run -/

/-! ### The main characterization of a disk-mode run -/

/-! ### The main characterization of a disk-mode run -/

theorem assembleDisk_run (att : α → α → α) (inp : DiskIn α)
    (h1 : inp.nophot ≤ 1) (h2 : inp.nowall ≤ 1) (h3 : inp.noangle ≤ 1)
    (h4 : inp.noscatt ≤ 1) (h5 : inp.noextinct ≤ 1) :
    assembleDisk att inp = finishDisk att inp (specState5 inp) := by
  simp only [assembleDisk, pipelineStep]
  rw [stepPhot_spec inp h1, exceptBind_ok, stepWall_spec inp h2, exceptBind_ok,
    stepAngle_spec inp h3, exceptBind_ok, stepScatt_spec inp h4, exceptBind_ok,
    stepExt_spec inp h5, exceptBind_ok]

theorem assembleDisk_spec (att : α → α → α) (inp : DiskIn α) {L : ℕ} {rv : α}
    (h1 : inp.nophot ≤ 1) (h2 : inp.nowall ≤ 1) (h3 : inp.noangle ≤ 1)
    (h4 : inp.noscatt ≤ 1) (h5 : inp.noextinct ≤ 1)
    (hg : uniformGrid L inp) (hr : inp.rin = some rv)
    (hc : ¬(inp.destExists = true ∧ inp.clob = 0)) :
    ∃ t, assembleDisk att inp = .ok
        { table := t, axis := specAxis inp, rin := rv,
          noext := !extAppb inp, failed := specFailed inp } ∧
      t.length = (specAxis inp).length ∧
      t.head? = some ((specFirstWl inp).getD []) ∧
      (extAppb inp = false →
        t = (if anyLoadedb inp then colsList inp else [[]])) := by
  rw [assembleDisk_run att inp h1 h2 h3 h4 h5]
  have hnoextb : (decide ((specState5 inp).noextinct = 1)) = !extAppb inp := by
    show (decide ((if extAppb inp then 0 else 1 : ℕ) = 1)) = !extAppb inp
    cases extAppb inp <;> simp
  have hcf : (inp.destExists = true ∧ inp.clob = 0) = False := by
    simp only [eq_iff_iff, iff_false]
    exact hc
  cases hl : anyLoadedb inp
  · obtain ⟨hcols, hnames⟩ := colsList_empty hl
    have hresh : reshapeRows (specState5 inp).axis_count (specState5 inp).dataarr
        = .ok [[]] := by
      show reshapeRows (1 + (axisNames inp).length) (colsList inp).flatten = _
      rw [hcols, hnames]
      exact reshapeRows_empty
    obtain ⟨t', ht', hlen, hhead, hid⟩ := applyExtRows_spec att inp [[]]
    have hext : extAppb inp = false := by
      cases hev : extAppb inp
      · rfl
      · have := extAppb_angle hev
        unfold anyLoadedb at hl
        simp [this] at hl
    refine ⟨t', ?_, ?_, ?_, ?_⟩
    · unfold finishDisk
      rw [hresh, exceptBind_ok]
      have ht'2 : applyExtRows att (specState5 inp).axis [[]]
          (specState5 inp).nophot (specState5 inp).nowall
          (specState5 inp).noextinct = .ok t' := ht'
      rw [ht'2, exceptBind_ok, hr]
      simp only [hcf, if_false, exceptPure_eq, hnoextb]
      rfl
    · rw [hlen]
      simp [specAxis, idxFrom_length, hnames]
    · rw [hhead]
      simp [specFirstWl_none hl]
    · intro h
      simp [hid hext, hl]
  · have hmul : (specState5 inp).axis_count = (colsList inp).length := by
      show 1 + (axisNames inp).length = _
      rw [colsList_length_loaded hl]
    have hne : colsList inp ≠ [] := by
      intro hcl
      have := colsList_length_loaded hl
      rw [hcl] at this
      simp at this
      omega
    have hresh : reshapeRows (specState5 inp).axis_count (specState5 inp).dataarr
        = .ok (colsList inp) := by
      show reshapeRows (specState5 inp).axis_count (colsList inp).flatten = _
      rw [hmul]
      exact reshapeRows_flatten L (colsList inp) (colsList_uniform hg) hne
    obtain ⟨t', ht', hlen, hhead, hid⟩ := applyExtRows_spec att inp (colsList inp)
    obtain ⟨w, hwspec, hwhead⟩ := colsList_head_loaded hl
    refine ⟨t', ?_, ?_, ?_, ?_⟩
    · unfold finishDisk
      rw [hresh, exceptBind_ok]
      have ht'2 : applyExtRows att (specState5 inp).axis (colsList inp)
          (specState5 inp).nophot (specState5 inp).nowall
          (specState5 inp).noextinct = .ok t' := ht'
      rw [ht'2, exceptBind_ok, hr]
      simp only [hcf, if_false, exceptPure_eq, hnoextb]
      rfl
    · rw [hlen, colsList_length_loaded hl]
      simp [specAxis, idxFrom_length]
      omega
    · rw [hhead, hwhead, hwspec]
      rfl
    · intro h
      simp [hid h, hl]

theorem pipelineStep_axis {inp : DiskIn α} {st : PipeStep} {s s' : DState α}
    (h : pipelineStep inp st s = .ok s') :
    (s'.axis = s.axis ∧ s'.axis_count = s.axis_count) ∨
    (s'.axis = s.axis ++ [(stepAxName st, s.axis_count)] ∧
      s'.axis_count = s.axis_count + 1) := by
  cases st <;>
    simp only [pipelineStep, stepPhot, stepWall, stepAngle, stepScatt,
      stepExt, stepAxName] at h ⊢ <;>
    repeat' split at h
  all_goals
    first
    | (rw [exceptPure_eq] at h
       cases h
       first
       | exact Or.inl ⟨rfl, rfl⟩
       | exact Or.inr ⟨rfl, rfl⟩)
    | exact Except.noConfusion h

theorem pipelineStep_failed {inp : DiskIn α} {st : PipeStep} {s s' : DState α}
    (h : pipelineStep inp st s = .ok s') (hf : s.failed = true) :
    s'.failed = true := by
  cases st <;>
    simp only [pipelineStep, stepPhot, stepWall, stepAngle, stepScatt,
      stepExt] at h <;>
    repeat' split at h
  all_goals
    first
    | (rw [exceptPure_eq] at h
       cases h
       first
       | exact hf
       | rfl)
    | exact Except.noConfusion h

theorem reshapeRows_length {k : ℕ} {l : List α} {t : List (List α)}
    (h : reshapeRows k l = .ok t) : t.length = k := by
  unfold reshapeRows at h
  split at h
  · rw [exceptPure_eq] at h
    cases h
    exact chunkRows_length _ _ _
  · cases h

theorem finishDisk_inv {att : α → α → α} {inp : DiskIn α} {s : DState α}
    {r : DRecord α} (h : finishDisk att inp s = .ok r) :
    r.axis = s.axis ∧ r.table.length = s.axis_count ∧ r.failed = s.failed := by
  unfold finishDisk at h
  cases hre : reshapeRows s.axis_count s.dataarr with
  | error e =>
      rw [hre, exceptBind_err] at h
      cases h
  | ok t =>
      rw [hre, exceptBind_ok] at h
      cases hae : applyExtRows att s.axis t s.nophot s.nowall s.noextinct with
      | error e =>
          rw [hae, exceptBind_err] at h
          cases h
      | ok t2 =>
          rw [hae, exceptBind_ok] at h
          cases hrin : inp.rin with
          | none =>
              rw [hrin] at h
              cases h
          | some rv =>
              rw [hrin] at h
              have h2 : ((if inp.destExists = true ∧ inp.clob = 0 then
                  throw (PyErr.ioError "File exists and clobber is not set")
                else pure { table := t2, axis := s.axis, rin := rv,
                            noext := (s.noextinct = 1),
                            failed := s.failed }) :
                  Except PyErr (DRecord α))
                  = Except.ok r := h
              by_cases hcl : (inp.destExists = true ∧ inp.clob = 0)
              · rw [if_pos hcl] at h2
                exact Except.noConfusion h2
              · rw [if_neg hcl, exceptPure_eq] at h2
                cases h2
                refine ⟨rfl, ?_, rfl⟩
                show t2.length = _
                rw [applyExtRows_length hae, reshapeRows_length hre]

theorem axinv_init (inp : DiskIn α) : AxInv (initState inp) := by
  refine ⟨?_, rfl, rfl⟩
  simp [initState, List.range_succ]

theorem axinv_step {inp : DiskIn α} {st : PipeStep} {s s' : DState α}
    (h : pipelineStep inp st s = .ok s') (hI : AxInv s) : AxInv s' := by
  obtain ⟨h1, h2, h3⟩ := hI
  rcases pipelineStep_axis h with ⟨ha, hc⟩ | ⟨ha, hc⟩
  · exact ⟨by rw [ha, hc, h1], by rw [ha, hc, h2], by rw [ha, h3]⟩
  · refine ⟨?_, ?_, ?_⟩
    · rw [ha, hc, List.map_append, h1, List.range_succ]
      simp
    · rw [ha, hc, List.length_append, h2]
      rfl
    · rw [ha]
      cases hax : s.axis with
      | nil =>
          rw [hax] at h3
          cases h3
      | cons x xs =>
          rw [hax] at h3
          simpa using h3

theorem axinv_sublist {inp : DiskIn α} {st : PipeStep} {s s' : DState α}
    (h : pipelineStep inp st s = .ok s') {A : List String}
    (hs : List.Sublist (s.axis.map Prod.fst) A) :
    List.Sublist (s'.axis.map Prod.fst) (A ++ [stepAxName st]) := by
  rcases pipelineStep_axis h with ⟨ha, -⟩ | ⟨ha, -⟩
  · rw [ha]
    exact hs.trans (List.sublist_append_left A _)
  · rw [ha, List.map_append]
    simpa using hs.append (List.Sublist.refl [stepAxName st])

/-! ### Decimal-digit lemmas for numCheck -/

theorem decVal_append_digit (a : List Char) (c : Char) :
    decVal (a ++ [c]) = decVal a * 10 + digitVal c := by
  unfold decVal
  rw [List.foldl_append]
  rfl

theorem digitVal_digitChar {d : ℕ} (h : d < 10) :
    digitVal (digitChar d) = d := by
  interval_cases d <;> rfl

theorem isDigit_digitChar {d : ℕ} (h : d < 10) :
    (digitChar d).isDigit = true := by
  interval_cases d <;> rfl

theorem natDigitsGo_spec : ∀ fuel n, n ≤ fuel →
    decVal (natDigitsGo fuel n) = n ∧ natDigitsGo fuel n ≠ [] ∧
    (natDigitsGo fuel n).all Char.isDigit = true := by
  intro fuel
  induction fuel with
  | zero =>
      intro n hn
      have h0 : n = 0 := by omega
      subst h0
      refine ⟨?_, by simp [natDigitsGo], by decide⟩
      show decVal [digitChar 0] = 0
      decide
  | succ fuel ih =>
      intro n hn
      by_cases h10 : n < 10
      · rw [natDigitsGo, if_pos h10]
        refine ⟨?_, by simp, ?_⟩
        · show decVal [digitChar n] = n
          unfold decVal
          simp [digitVal_digitChar h10]
        · simp [isDigit_digitChar h10]
      · rw [natDigitsGo, if_neg h10]
        have hdiv : n / 10 ≤ fuel := by omega
        obtain ⟨ihv, ihne, ihd⟩ := ih (n / 10) hdiv
        refine ⟨?_, by simp, ?_⟩
        · rw [decVal_append_digit, ihv, digitVal_digitChar (Nat.mod_lt n (by omega))]
          omega
        · simp [List.all_append, ihd,
            isDigit_digitChar (Nat.mod_lt n (by omega))]

theorem natDigitsGo_len : ∀ fuel n k, n ≤ fuel → n < 10 ^ k → 1 ≤ k →
    (natDigitsGo fuel n).length ≤ k := by
  intro fuel
  induction fuel with
  | zero =>
      intro n k hn hk h1
      have h0 : n = 0 := by omega
      subst h0
      simpa [natDigitsGo] using h1
  | succ fuel ih =>
      intro n k hn hk h1
      by_cases h10 : n < 10
      · rw [natDigitsGo, if_pos h10]
        simpa using h1
      · rw [natDigitsGo, if_neg h10]
        have hk2 : 2 ≤ k := by
          by_contra hlt
          have hk1 : k = 1 := by omega
          subst hk1
          simp at hk
          omega
        have hdivk : n / 10 < 10 ^ (k - 1) := by
          rw [Nat.div_lt_iff_lt_mul (by omega)]
          calc n < 10 ^ k := hk
          _ = 10 ^ (k - 1) * 10 := by
            rw [← pow_succ]
            congr 1
            omega
        have := ih (n / 10) (k - 1) (by omega) hdivk (by omega)
        simp only [List.length_append, List.length_cons, List.length_nil]
        omega

theorem natDigits_spec (n : ℕ) :
    decVal (natDigits n) = n ∧ natDigits n ≠ [] ∧
    (natDigits n).all Char.isDigit = true :=
  natDigitsGo_spec n n (le_refl n)

theorem natDigits_len {n k : ℕ} (hk : n < 10 ^ k) (h1 : 1 ≤ k) :
    (natDigits n).length ≤ k :=
  natDigitsGo_len n n k (le_refl n) hk h1

theorem decVal_zeros (k : ℕ) (ds : List Char) :
    decVal (List.replicate k '0' ++ ds) = decVal ds := by
  induction k with
  | zero => rfl
  | succ k ih =>
      rw [List.replicate_succ, List.cons_append]
      show decVal ('0' :: (List.replicate k '0' ++ ds)) = _
      unfold decVal at ih ⊢
      simpa using ih

theorem pyFormat0d_spec {w n : ℕ} (hlen : (natDigits n).length ≤ w) :
    (pyFormat0d w n).length = w ∧ decVal (pyFormat0d w n) = n ∧
    (pyFormat0d w n).all Char.isDigit = true := by
  obtain ⟨hv, -, hd⟩ := natDigits_spec n
  unfold pyFormat0d
  refine ⟨?_, ?_, ?_⟩
  · simp only [List.length_append, List.length_replicate]
    omega
  · rw [decVal_zeros, hv]
  · simp only [List.all_append, hd, Bool.and_true]
    rw [List.all_eq_true]
    intro c hc
    rw [List.eq_of_mem_replicate hc]
    rfl

/-- C7: `failCheck` with `jobnum='all'` over a directory of collated
records (records in which a present `FAILED` tag always has value 1)
returns exactly the records whose failure flag is set, and a record whose
header lacks the tag entirely is excluded. -/
theorem claim_C7 (hs : List Header)
    (hcoll : ∀ h ∈ hs, ∀ v, headerLookup h "FAILED" = some v → v = 1) :
    failCheckAll hs
      = hs.filter (fun h => headerLookup h "FAILED" == some 1) ∧
    ∀ h ∈ hs, headerLookup h "FAILED" = none → h ∉ failCheckAll hs := by
  constructor
  · unfold failCheckAll
    apply List.filter_congr
    intro h hmem
    cases hv : headerLookup h "FAILED" with
    | none => rfl
    | some v =>
        have := hcoll h hmem v hv
        subst this
        rfl
  · intro h hmem hnone hin
    unfold failCheckAll at hin
    have := List.of_mem_filter hin
    rw [hnone] at this
    cases this

/-- Witness for C7 on the ten-record directory. -/
theorem claim_C7_witness :
    failCheckAll hdrsW
      = hdrsW.filter (fun h => headerLookup h "FAILED" == some 1) ∧
    ∀ h ∈ hdrsW, headerLookup h "FAILED" = none → h ∉ failCheckAll hdrsW :=
  claim_C7 hdrsW (by decide)

/-- C9: for `0 ≤ num ≤ 9999`, `numCheck` returns the decimal digit string
of `num`, zero-padded to 4 characters when `num > 999` or `high = 1` and to
3 characters otherwise; outside that range it raises `ValueError`. -/
theorem claim_C9 :
    (∀ (num : ℤ) (high : ℕ), 0 ≤ num → num ≤ 9999 →
      ∃ s, numCheck num high = .ok s ∧
        s.length = (if 999 < num ∨ high = 1 then 4 else 3) ∧
        (decVal s : ℤ) = num ∧ s.all Char.isDigit = true) ∧
    (∀ (num : ℤ) (high : ℕ), num < 0 ∨ 9999 < num →
      numCheck num high
        = .error (.valueError "Number too small/large for string handling!")) := by
  constructor
  · intro num high h0 h9
    unfold numCheck
    rw [if_neg (by omega)]
    by_cases hbig : num > 999 ∨ high = 1
    · rw [if_pos hbig]
      have hn4 : num.toNat < 10 ^ 4 := by omega
      obtain ⟨hl, hv, hd⟩ := pyFormat0d_spec (natDigits_len hn4 (by omega))
      refine ⟨_, exceptPure_eq _, ?_, ?_, hd⟩
      · rw [hl, if_pos hbig]
      · rw [hv]
        omega
    · rw [if_neg hbig]
      have hsmall : num ≤ 999 := by
        by_contra hlt
        exact hbig (Or.inl (by omega))
      have hn3 : num.toNat < 10 ^ 3 := by omega
      obtain ⟨hl, hv, hd⟩ := pyFormat0d_spec (natDigits_len hn3 (by omega))
      refine ⟨_, exceptPure_eq _, ?_, ?_, hd⟩
      · rw [hl, if_neg hbig]
      · rw [hv]
        omega
  · intro num high h
    unfold numCheck
    rw [if_pos (by omega)]
    rfl

/-- Witness for C9: `numCheck 12 1` yields a 4-character digit string
decoding to 12, and `numCheck 10000` raises `ValueError`. -/
theorem claim_C9_witness :
    (∃ s, numCheck 12 1 = .ok s ∧
      s.length = (if (999 : ℤ) < 12 ∨ 1 = 1 then 4 else 3) ∧
      (decVal s : ℤ) = 12 ∧ s.all Char.isDigit = true) ∧
    numCheck 10000 0
      = .error (.valueError "Number too small/large for string handling!") :=
  ⟨claim_C9.1 12 1 (by decide) (by decide), claim_C9.2 10000 0 (by omega)⟩

/-- C10: in disk mode, a job file whose `labelend` differs from
`name + '_' + jobnum` makes `collateDisk` return without a record and
without raising. -/
theorem claim_C10 {α : Type} (att : α → α → α) (name jobnum : List Char)
    (jobf : List Char) (inp : DiskIn α) (l : List Char)
    (hl : getLabelend jobf = .ok l)
    (hne : l ≠ name ++ chars "_" ++ jobnum) :
    collateDisk att name jobnum (some jobf) inp = .ok none := by
  simp only [collateDisk]
  rw [hl, exceptBind_ok, if_pos hne]
  rfl

/-- Witness for C10: collating job `001` of object `obj` against a job file
labelled `obj_002` returns no record. -/
theorem claim_C10_witness :
    collateDisk attQ (chars "obj") (chars "001") (some jobfC10) inpW0
      = .ok none :=
  claim_C10 attQ (chars "obj") (chars "001") jobfC10 inpW0
    (chars "obj_002") (by decide) (by decide)

/-- C2: for every successful disk-mode assembly (any attenuation, any
component availability, any keyword values), the written record's axis map
starts with the wavelength axis at index 0, assigns consecutive indices
(each newly loaded component one past the current highest), names its axes
in the fixed processing order, and satisfies
`table.shape[0] == len(AxisMap)`. -/
theorem claim_C2 {α : Type} (att : α → α → α) (inp : DiskIn α)
    (r : DRecord α) (h : assembleDisk att inp = .ok r) :
    r.axis.head? = some ("WLAXIS", 0) ∧
    r.axis.map Prod.snd = List.range r.axis.length ∧
    r.table.length = r.axis.length ∧
    List.Sublist (r.axis.map Prod.fst)
      ["WLAXIS", "PHOTAXIS", "WALLAXIS", "ANGAXIS", "SCATAXIS", "EXTAXIS"] := by
  simp only [assembleDisk] at h
  cases h1 : pipelineStep inp .phot (initState inp) with
  | error e =>
      rw [h1, exceptBind_err] at h
      exact Except.noConfusion h
  | ok s1 =>
  rw [h1, exceptBind_ok] at h
  cases h2 : pipelineStep inp .wall s1 with
  | error e =>
      rw [h2, exceptBind_err] at h
      exact Except.noConfusion h
  | ok s2 =>
  rw [h2, exceptBind_ok] at h
  cases h3 : pipelineStep inp .angle s2 with
  | error e =>
      rw [h3, exceptBind_err] at h
      exact Except.noConfusion h
  | ok s3 =>
  rw [h3, exceptBind_ok] at h
  cases h4 : pipelineStep inp .scatt s3 with
  | error e =>
      rw [h4, exceptBind_err] at h
      exact Except.noConfusion h
  | ok s4 =>
  rw [h4, exceptBind_ok] at h
  cases h5 : pipelineStep inp .ext s4 with
  | error e =>
      rw [h5, exceptBind_err] at h
      exact Except.noConfusion h
  | ok s5 =>
  rw [h5, exceptBind_ok] at h
  have I1 := axinv_step h1 (axinv_init inp)
  have I2 := axinv_step h2 I1
  have I3 := axinv_step h3 I2
  have I4 := axinv_step h4 I3
  have I5 := axinv_step h5 I4
  have S0 : List.Sublist ((initState inp).axis.map Prod.fst) ["WLAXIS"] := by
    simp [initState]
  have S1 := axinv_sublist h1 S0
  have S2 := axinv_sublist h2 S1
  have S3 := axinv_sublist h3 S2
  have S4 := axinv_sublist h4 S3
  have S5 := axinv_sublist h5 S4
  obtain ⟨i1, i2, i3⟩ := I5
  obtain ⟨hax, htab, -⟩ := finishDisk_inv h
  refine ⟨?_, ?_, ?_, ?_⟩
  · rw [hax]
    exact i3
  · rw [hax, i2, i1]
  · rw [htab, hax, i2]
  · rw [hax]
    simpa [stepAxName] using S5

/-- Witness for C2 on the fully-populated run. -/
theorem claim_C2_witness :
    recW.axis.head? = some ("WLAXIS", 0) ∧
    recW.axis.map Prod.snd = List.range recW.axis.length ∧
    recW.table.length = recW.axis.length ∧
    List.Sublist (recW.axis.map Prod.fst)
      ["WLAXIS", "PHOTAXIS", "WALLAXIS", "ANGAXIS", "SCATAXIS", "EXTAXIS"] :=
  claim_C2 attQ inpW recW (by rfl)

/-- C8: the failure flag is monotonic: every assembly stage and the final
reshape-correct-write step either leave it unchanged or set it; none ever
clears it. -/
theorem claim_C8 {α : Type} (att : α → α → α) (inp : DiskIn α) :
    (∀ (st : PipeStep) (s s' : DState α),
      pipelineStep inp st s = .ok s' → s.failed = true → s'.failed = true) ∧
    (∀ (s : DState α) (r : DRecord α),
      finishDisk att inp s = .ok r → s.failed = true → r.failed = true) := by
  constructor
  · intro st s s' h hf
    exact pipelineStep_failed h hf
  · intro s r h hf
    rw [(finishDisk_inv h).2.2]
    exact hf

/-- Witness for C8: stepping and finishing a failed state keeps the flag. -/
theorem claim_C8_witness :
    sF.failed = true ∧
    ({ table := [[]], axis := [("WLAXIS", 0)], rin := (1 : ℚ), noext := true,
        failed := true } : DRecord ℚ).failed = true :=
  ⟨(claim_C8 attQ inpW0).1 .phot sF sF (by rfl) (by rfl),
   (claim_C8 attQ inpW0).2 sF _ (by rfl) (by rfl)⟩

theorem finishDisk_cond {att : α → α → α} {inp : DiskIn α} {s : DState α}
    {r : DRecord α} (h : finishDisk att inp s = .ok r) :
    (∃ rv, inp.rin = some rv) ∧ ¬(inp.destExists = true ∧ inp.clob = 0) := by
  unfold finishDisk at h
  cases hre : reshapeRows s.axis_count s.dataarr with
  | error e =>
      rw [hre, exceptBind_err] at h
      exact Except.noConfusion h
  | ok t =>
      rw [hre, exceptBind_ok] at h
      cases hae : applyExtRows att s.axis t s.nophot s.nowall s.noextinct with
      | error e =>
          rw [hae, exceptBind_err] at h
          exact Except.noConfusion h
      | ok t2 =>
          rw [hae, exceptBind_ok] at h
          cases hrin : inp.rin with
          | none =>
              rw [hrin] at h
              exact Except.noConfusion h
          | some rv =>
              rw [hrin] at h
              have h2 : ((if inp.destExists = true ∧ inp.clob = 0 then
                  throw (PyErr.ioError "File exists and clobber is not set")
                else pure { table := t2, axis := s.axis, rin := rv,
                            noext := (s.noextinct = 1),
                            failed := s.failed }) :
                  Except PyErr (DRecord α))
                  = Except.ok r := h
              refine ⟨⟨rv, rfl⟩, ?_⟩
              intro hcl
              rw [if_pos hcl] at h2
              exact Except.noConfusion h2

theorem idxFrom_map_fst (k : ℕ) (names : List String) :
    (idxFrom k names).map Prod.fst = names := by
  induction names generalizing k with
  | nil => rfl
  | cons n rest ih => simp [idxFrom, ih]

theorem extaxis_not_mem {inp : DiskIn α} (h : extAppb inp = false) :
    "EXTAXIS" ∉ (specAxis inp).map Prod.fst := by
  simp only [specAxis, List.map_cons, idxFrom_map_fst]
  intro hmem
  rcases List.mem_cons.mp hmem with hm | hm
  · exact absurd hm (by decide)
  · unfold axisNames at hm
    simp only [h, Bool.false_eq_true, if_false, List.append_nil,
      List.mem_append] at hm
    rcases hm with ((hm | hm) | hm) | hm <;> revert hm <;> split <;> simp

/-- C3: under well-formed keywords and a uniform grid, the wavelength row
of a successfully written record is the `col1` of the first loaded
component in the order photosphere, wall, disk/angle, scattered light
(empty when nothing loads); and when nothing loads the record has no
component axes, with the failure flag set as long as at least one stage was
actually enabled. -/
theorem claim_C3 {α : Type} (att : α → α → α) (inp : DiskIn α)
    (r : DRecord α) (L : ℕ)
    (h1 : inp.nophot ≤ 1) (h2 : inp.nowall ≤ 1) (h3 : inp.noangle ≤ 1)
    (h4 : inp.noscatt ≤ 1) (h5 : inp.noextinct ≤ 1)
    (hg : uniformGrid L inp)
    (hok : assembleDisk att inp = .ok r) :
    r.table.head? = some ((specFirstWl inp).getD []) ∧
    (specFirstWl inp = none →
      r.axis = [("WLAXIS", 0)] ∧
      ((inp.nophot = 0 ∨ inp.nowall = 0 ∨ inp.noangle = 0 ∨
        inp.noscatt = 0 ∨ inp.noextinct = 0) → r.failed = true)) := by
  have hfin : finishDisk att inp (specState5 inp) = .ok r := by
    rw [← assembleDisk_run att inp h1 h2 h3 h4 h5]
    exact hok
  obtain ⟨⟨rv, hr⟩, hc⟩ := finishDisk_cond hfin
  obtain ⟨t, heq, hlen, hhead, hid⟩ :=
    assembleDisk_spec att inp h1 h2 h3 h4 h5 hg hr hc
  rw [hok] at heq
  have hrec := (Except.ok.injEq _ _).mp heq.symm
  subst hrec
  refine ⟨hhead, ?_⟩
  intro hnone
  have hl : anyLoadedb inp = false := by
    cases hl : anyLoadedb inp
    · rfl
    · obtain ⟨w, hw, -⟩ := colsList_head_loaded hl
      rw [hnone] at hw
      cases hw
  obtain ⟨-, hnames⟩ := colsList_empty hl
  constructor
  · show specAxis inp = _
    rw [specAxis, hnames]
    rfl
  · intro hen
    show specFailed inp = true
    unfold anyLoadedb at hl
    simp only [Bool.or_eq_false_iff] at hl
    obtain ⟨⟨⟨hp, hw⟩, ha⟩, hs⟩ := hl
    unfold specFailed
    rcases hen with h0 | h0 | h0 | h0 | h0
    · unfold photLoadedb at hp
      simp only [h0] at hp ⊢
      simp at hp
      simp [hp]
    · unfold wallLoadedb at hw
      simp only [h0] at hw ⊢
      simp at hw
      simp [hw]
    · unfold angleLoadedb at ha
      simp only [h0] at ha ⊢
      simp at ha
      simp [ha]
    · unfold scattLoadedb at hs
      simp only [h0] at hs ⊢
      simp at hs
      simp [hs]
    · simp [h0, ha]

/-- Witness for C3: with the photosphere missing, the wall's `col1` becomes
the wavelength row. -/
theorem claim_C3_witness :
    recC3.table.head? = some ((specFirstWl inpC3).getD []) ∧
    (specFirstWl inpC3 = none →
      recC3.axis = [("WLAXIS", 0)] ∧
      ((inpC3.nophot = 0 ∨ inpC3.nowall = 0 ∨ inpC3.noangle = 0 ∨
        inpC3.noscatt = 0 ∨ inpC3.noextinct = 0) → recC3.failed = true)) :=
  claim_C3 attQ inpC3 recC3 2 (by decide) (by decide) (by decide) (by decide)
    (by decide)
    ⟨fun c h => FStat.noConfusion h,
     fun c h => by cases h; exact ⟨rfl, rfl⟩,
     fun c h => FStat.noConfusion h,
     fun c h => FStat.noConfusion h⟩
    (by rfl)

/-- C5: when extinction is requested but the disk/angle component does not
load (disabled, missing or empty), the job does not abort: a record is
still written with the failure flag set, the `NOEXT` tag present, no
extinction axis, the axis map of the loaded components, and the table
assembled from the loaded components uncorrected. -/
theorem claim_C5 {α : Type} (att : α → α → α) (inp : DiskIn α) (L : ℕ)
    (rv : α)
    (h1 : inp.nophot ≤ 1) (h2 : inp.nowall ≤ 1) (h3 : inp.noangle ≤ 1)
    (h4 : inp.noscatt ≤ 1) (h5 : inp.noextinct ≤ 1)
    (hg : uniformGrid L inp) (hr : inp.rin = some rv)
    (hc : ¬(inp.destExists = true ∧ inp.clob = 0))
    (hreq : inp.noextinct = 0) (hnl : angleLoadedb inp = false) :
    ∃ r, assembleDisk att inp = .ok r ∧ r.failed = true ∧ r.noext = true ∧
      "EXTAXIS" ∉ r.axis.map Prod.fst ∧ r.axis = specAxis inp ∧
      r.table = (if anyLoadedb inp then colsList inp else [[]]) := by
  have hext : extAppb inp = false := by
    unfold extAppb
    rw [hnl]
    simp
  obtain ⟨t, heq, -, -, hid⟩ :=
    assembleDisk_spec att inp h1 h2 h3 h4 h5 hg hr hc
  refine ⟨_, heq, ?_, ?_, ?_, rfl, hid hext⟩
  · show specFailed inp = true
    unfold specFailed
    simp [hreq, hnl]
  · show (!extAppb inp) = true
    rw [hext]
    rfl
  · show "EXTAXIS" ∉ (specAxis inp).map Prod.fst
    exact extaxis_not_mem hext

/-- Witness for C5 on the spec's concrete scenario; the resulting axis map
is exactly `{wavelength: 0, photosphere: 1, wall: 2}`. -/
theorem claim_C5_witness :
    (∃ r, assembleDisk attQ inpC5w = .ok r ∧ r.failed = true ∧
      r.noext = true ∧ "EXTAXIS" ∉ r.axis.map Prod.fst ∧
      r.axis = specAxis inpC5w ∧
      r.table = (if anyLoadedb inpC5w then colsList inpC5w else [[]])) ∧
    specAxis inpC5w = [("WLAXIS", 0), ("PHOTAXIS", 1), ("WALLAXIS", 2)] :=
  ⟨claim_C5 attQ inpC5w 2 7 (by decide) (by decide) (by decide) (by decide)
    (by decide)
    ⟨fun c h => by cases h; exact ⟨rfl, rfl⟩,
     fun c h => by cases h; exact ⟨rfl, rfl⟩,
     fun c h => FStat.noConfusion h,
     fun c h => FStat.noConfusion h⟩
    rfl (by decide) rfl rfl, by rfl⟩

/-- C6 counterexample: a job with no configuration violation, no grid
mismatch and no write conflict still aborts without a record — with an
uncaught `IndexError` from `glob(path+'rin*'+...)[0]` — when the `rin`
input file is missing.  So those three conditions are not the only ways a
job aborts without producing a record. -/
theorem claim_C6_counterexample :
    assembleDisk attQ inpC6 = .error (.indexError "rin glob") := by rfl

/-- C6 amended: under well-formed keywords and a uniform grid, missing or
empty component files and unavailable extinction input never abort the job
— a record is always written, with those conditions absorbed into the
failure flag — while a missing `rin` file aborts the job with an uncaught
`IndexError` (in addition to the three fatal conditions the claim lists). -/
theorem claim_C6 {α : Type} (att : α → α → α) (inp : DiskIn α) (L : ℕ)
    (h1 : inp.nophot ≤ 1) (h2 : inp.nowall ≤ 1) (h3 : inp.noangle ≤ 1)
    (h4 : inp.noscatt ≤ 1) (h5 : inp.noextinct ≤ 1)
    (hg : uniformGrid L inp) :
    (∀ rv, inp.rin = some rv → ¬(inp.destExists = true ∧ inp.clob = 0) →
      ∃ r, assembleDisk att inp = .ok r ∧ r.failed = specFailed inp) ∧
    (inp.rin = none →
      assembleDisk att inp = .error (.indexError "rin glob")) := by
  constructor
  · intro rv hr hc
    obtain ⟨t, heq, -, -, -⟩ :=
      assembleDisk_spec att inp h1 h2 h3 h4 h5 hg hr hc
    exact ⟨_, heq, rfl⟩
  · intro hr
    rw [assembleDisk_run att inp h1 h2 h3 h4 h5]
    unfold finishDisk
    cases hl : anyLoadedb inp
    · obtain ⟨hcols, hnames⟩ := colsList_empty hl
      have hresh : reshapeRows (specState5 inp).axis_count
          (specState5 inp).dataarr = .ok [[]] := by
        show reshapeRows (1 + (axisNames inp).length) (colsList inp).flatten = _
        rw [hcols, hnames]
        exact reshapeRows_empty
      rw [hresh, exceptBind_ok]
      obtain ⟨t', ht', -, -, -⟩ := applyExtRows_spec att inp [[]]
      have ht'2 : applyExtRows att (specState5 inp).axis [[]]
          (specState5 inp).nophot (specState5 inp).nowall
          (specState5 inp).noextinct = .ok t' := ht'
      rw [ht'2, exceptBind_ok, hr]
      rfl
    · have hmul : (specState5 inp).axis_count = (colsList inp).length := by
        show 1 + (axisNames inp).length = _
        rw [colsList_length_loaded hl]
      have hne : colsList inp ≠ [] := by
        intro hcl
        have := colsList_length_loaded hl
        rw [hcl] at this
        simp at this
        omega
      have hresh : reshapeRows (specState5 inp).axis_count
          (specState5 inp).dataarr = .ok (colsList inp) := by
        show reshapeRows (specState5 inp).axis_count (colsList inp).flatten = _
        rw [hmul]
        exact reshapeRows_flatten L (colsList inp) (colsList_uniform hg) hne
      rw [hresh, exceptBind_ok]
      obtain ⟨t', ht', -, -, -⟩ := applyExtRows_spec att inp (colsList inp)
      have ht'2 : applyExtRows att (specState5 inp).axis (colsList inp)
          (specState5 inp).nophot (specState5 inp).nowall
          (specState5 inp).noextinct = .ok t' := ht'
      rw [ht'2, exceptBind_ok, hr]
      rfl

/-- Witness for C6: the all-missing job still writes a (failed) record. -/
theorem claim_C6_witness :
    ∃ r, assembleDisk attQ inpC6w = .ok r ∧ r.failed = specFailed inpC6w :=
  (claim_C6 attQ inpC6w 0 (by decide) (by decide) (by decide) (by decide)
    (by decide)
    ⟨fun c h => FStat.noConfusion h, fun c h => FStat.noConfusion h,
     fun c h => FStat.noConfusion h, fun c h => FStat.noConfusion h⟩).1
    2 rfl (by decide)

theorem getD_set_self {β : Type} {l : List β} {i : ℕ} (h : i < l.length)
    (a d : β) : (l.set i a).getD i d = a := by
  induction l generalizing i with
  | nil => simp at h
  | cons x xs ih =>
      cases i with
      | zero => rfl
      | succ n =>
          simp only [List.set_cons_succ, List.getD_cons_succ]
          exact ih (by simpa using h)

theorem getD_set_ne {β : Type} {i j : ℕ} (h : i ≠ j) (l : List β)
    (a d : β) : (l.set i a).getD j d = l.getD j d := by
  induction l generalizing i j with
  | nil => rfl
  | cons x xs ih =>
      cases i with
      | zero =>
          cases j with
          | zero => exact absurd rfl h
          | succ m => rfl
      | succ n =>
          cases j with
          | zero => rfl
          | succ m =>
              simp only [List.set_cons_succ, List.getD_cons_succ]
              exact ih (by omega)

/-- C4 amended: when the correction runs, exactly the photosphere row (if
the photosphere is present, `np = 0`) and the wall row (if the wall is
present, `nw = 0`) are replaced by their elementwise product with
`exp(-e)` (`e` the extinction row), every other row — the extinction row
included — is unchanged, and for `0 ≤ e` each corrected sample's magnitude
is at most the uncorrected one, with equality exactly where the extinction
value is zero **or the sample itself is zero**. -/
theorem claim_C4 (t : List (List ℝ)) (axis : List (String × ℕ))
    (np nw ip iw ie : ℕ)
    (hip : np = 0 → axLookup axis "PHOTAXIS" = .ok ip)
    (hiw : nw = 0 → axLookup axis "WALLAXIS" = .ok iw)
    (hie : axLookup axis "EXTAXIS" = .ok ie)
    (hpw : np = 0 → nw = 0 → ip ≠ iw)
    (hpe : np = 0 → ip ≠ ie)
    (hipl : np = 0 → ip < t.length)
    (hiwl : nw = 0 → iw < t.length) :
    ∃ t', applyExtRows (fun x e => x * Real.exp (-e)) axis t np nw 0
        = .ok t' ∧
      (np = 0 → t'.getD ip []
        = List.zipWith (fun x e => x * Real.exp (-e)) (t.getD ip [])
            (t.getD ie [])) ∧
      (nw = 0 → t'.getD iw []
        = List.zipWith (fun x e => x * Real.exp (-e)) (t.getD iw [])
            (t.getD ie [])) ∧
      (∀ j, (np = 0 → j ≠ ip) → (nw = 0 → j ≠ iw) →
        t'.getD j [] = t.getD j []) ∧
      (∀ x e : ℝ, 0 ≤ e →
        |x * Real.exp (-e)| ≤ |x| ∧
        (|x * Real.exp (-e)| = |x| ↔ e = 0 ∨ x = 0)) := by
  have hineq : ∀ x e : ℝ, 0 ≤ e →
      |x * Real.exp (-e)| ≤ |x| ∧
      (|x * Real.exp (-e)| = |x| ↔ e = 0 ∨ x = 0) := by
    intro x e he
    have hexp1 : Real.exp (-e) ≤ 1 := by
      rw [Real.exp_le_one_iff]
      linarith
    have hexpos : (0 : ℝ) < Real.exp (-e) := Real.exp_pos _
    have habs : |x * Real.exp (-e)| = |x| * Real.exp (-e) := by
      rw [abs_mul, abs_of_pos hexpos]
    constructor
    · rw [habs]
      exact mul_le_of_le_one_right (abs_nonneg x) hexp1
    · rw [habs]
      constructor
      · intro hEq
        by_cases hx : x = 0
        · exact Or.inr hx
        · left
          have hxne : |x| ≠ 0 := abs_ne_zero.mpr hx
          have hone : Real.exp (-e) = 1 :=
            mul_left_cancel₀ hxne (hEq.trans (mul_one |x|).symm)
          have := (Real.exp_eq_one_iff (-e)).mp hone
          linarith
      · rintro (rfl | rfl) <;> simp
  by_cases hnp : np = 0
  · by_cases hnw : nw = 0
    · have h1 : (if np = 0 then
          correctRow (fun x e => x * Real.exp (-e)) axis "PHOTAXIS" t
        else pure t) = .ok (t.set ip
          (List.zipWith (fun x e => x * Real.exp (-e))
            (getRow t ip) (getRow t ie))) := by
        rw [if_pos hnp]
        exact correctRow_ok t (hip hnp) hie
      set t1 := t.set ip (List.zipWith (fun x e => x * Real.exp (-e))
        (getRow t ip) (getRow t ie)) with ht1
      have h2 : (if nw = 0 then
          correctRow (fun x e => x * Real.exp (-e)) axis "WALLAXIS" t1
        else pure t1) = .ok (t1.set iw
          (List.zipWith (fun x e => x * Real.exp (-e)) (getRow t1 iw)
            (getRow t1 ie))) := by
        rw [if_pos hnw]
        exact correctRow_ok t1 (hiw hnw) hie
      have heq := applyExtRows_eval h1 h2
      have hrow1 : getRow t1 iw = t.getD iw [] := by
        rw [ht1]
        exact getD_set_ne (hpw hnp hnw) t _ _
      have hrowe : getRow t1 ie = t.getD ie [] := by
        rw [ht1]
        exact getD_set_ne (hpe hnp) t _ _
      refine ⟨_, heq, ?_, ?_, ?_, hineq⟩
      · intro _
        rw [getD_set_ne (Ne.symm (hpw hnp hnw)) t1 _ _, ht1,
          getD_set_self (hipl hnp)]
        rfl
      · intro _
        rw [getD_set_self (by rw [ht1]; simpa using hiwl hnw), hrow1, hrowe]
      · intro j hjp hjw
        rw [getD_set_ne (Ne.symm (hjw hnw)) t1 _ _, ht1,
          getD_set_ne (Ne.symm (hjp hnp)) t _ _]
    · have h1 : (if np = 0 then
          correctRow (fun x e => x * Real.exp (-e)) axis "PHOTAXIS" t
        else pure t) = .ok (t.set ip
          (List.zipWith (fun x e => x * Real.exp (-e))
            (getRow t ip) (getRow t ie))) := by
        rw [if_pos hnp]
        exact correctRow_ok t (hip hnp) hie
      set t1 := t.set ip (List.zipWith (fun x e => x * Real.exp (-e))
        (getRow t ip) (getRow t ie)) with ht1
      have h2 : (if nw = 0 then
          correctRow (fun x e => x * Real.exp (-e)) axis "WALLAXIS" t1
        else pure t1) = .ok t1 := by
        rw [if_neg hnw]
        rfl
      have heq := applyExtRows_eval h1 h2
      refine ⟨_, heq, ?_, ?_, ?_, hineq⟩
      · intro _
        rw [ht1, getD_set_self (hipl hnp)]
        rfl
      · intro h
        exact absurd h hnw
      · intro j hjp _
        rw [ht1, getD_set_ne (Ne.symm (hjp hnp)) t _ _]
  · by_cases hnw : nw = 0
    · have h1 : (if np = 0 then
          correctRow (fun x e => x * Real.exp (-e)) axis "PHOTAXIS" t
        else pure t) = .ok t := by
        rw [if_neg hnp]
        rfl
      have h2 : (if nw = 0 then
          correctRow (fun x e => x * Real.exp (-e)) axis "WALLAXIS" t
        else pure t) = .ok (t.set iw
          (List.zipWith (fun x e => x * Real.exp (-e)) (getRow t iw)
            (getRow t ie))) := by
        rw [if_pos hnw]
        exact correctRow_ok t (hiw hnw) hie
      have heq := applyExtRows_eval h1 h2
      refine ⟨_, heq, ?_, ?_, ?_, hineq⟩
      · intro h
        exact absurd h hnp
      · intro _
        rw [getD_set_self (hiwl hnw)]
        rfl
      · intro j _ hjw
        rw [getD_set_ne (Ne.symm (hjw hnw)) t _ _]
    · have h1 : (if np = 0 then
          correctRow (fun x e => x * Real.exp (-e)) axis "PHOTAXIS" t
        else pure t) = .ok t := by
        rw [if_neg hnp]
        rfl
      have h2 : (if nw = 0 then
          correctRow (fun x e => x * Real.exp (-e)) axis "WALLAXIS" t
        else pure t) = .ok t := by
        rw [if_neg hnw]
        rfl
      exact ⟨t, applyExtRows_eval h1 h2, fun h => absurd h hnp,
        fun h => absurd h hnw, fun _ _ _ => rfl, hineq⟩

/-- C4 counterexample: correcting `tC4` (photosphere row `[0]`, extinction
row `[1]`, wall disabled) leaves the table unchanged, so the corrected
photosphere sample's magnitude *equals* the uncorrected one although the
extinction value `1` is nonzero — refuting "equality exactly where the
extinction value is zero". -/
theorem claim_C4_counterexample :
    applyExtRows (fun x e => x * Real.exp (-e)) axC4 tC4 0 1 0 = .ok tC4 ∧
    getRow tC4 3 = [(1 : ℝ)] ∧ (1 : ℝ) ≠ 0 := by
  refine ⟨?_, rfl, one_ne_zero⟩
  have h1 : (if (0 : ℕ) = 0 then
      correctRow (fun x e => x * Real.exp (-e)) axC4 "PHOTAXIS" tC4
    else pure tC4) = .ok (tC4.set 1
      (List.zipWith (fun x e => x * Real.exp (-e)) (getRow tC4 1)
        (getRow tC4 3))) := by
    rw [if_pos rfl]
    exact correctRow_ok tC4 rfl rfl
  have hset : tC4.set 1 (List.zipWith (fun x e => x * Real.exp (-e))
      (getRow tC4 1) (getRow tC4 3)) = tC4 := by
    show tC4.set 1 (List.zipWith _ [(0 : ℝ)] [(1 : ℝ)]) = tC4
    simp [tC4]
  rw [hset] at h1
  have h2 : (if (1 : ℕ) = 0 then
      correctRow (fun x e => x * Real.exp (-e)) axC4 "WALLAXIS" tC4
    else pure tC4) = .ok tC4 := by
    rw [if_neg (by omega)]
    rfl
  exact applyExtRows_eval h1 h2

/-- Witness for C4 on a four-row table, in all three applied-correction
shapes: photosphere and wall both present, wall absent, photosphere
absent. -/
theorem claim_C4_witness :
    (∃ t', applyExtRows (fun x e => x * Real.exp (-e)) axC4w tC4w 0 0 0
        = .ok t' ∧
      ((0 : ℕ) = 0 → t'.getD 1 []
        = List.zipWith (fun x e => x * Real.exp (-e)) (tC4w.getD 1 [])
            (tC4w.getD 3 [])) ∧
      ((0 : ℕ) = 0 → t'.getD 2 []
        = List.zipWith (fun x e => x * Real.exp (-e)) (tC4w.getD 2 [])
            (tC4w.getD 3 [])) ∧
      (∀ j, ((0 : ℕ) = 0 → j ≠ 1) → ((0 : ℕ) = 0 → j ≠ 2) →
        t'.getD j [] = tC4w.getD j []) ∧
      (∀ x e : ℝ, 0 ≤ e →
        |x * Real.exp (-e)| ≤ |x| ∧
        (|x * Real.exp (-e)| = |x| ↔ e = 0 ∨ x = 0))) ∧
    (∃ t', applyExtRows (fun x e => x * Real.exp (-e)) axC4 tC4w 0 1 0
        = .ok t' ∧
      ((0 : ℕ) = 0 → t'.getD 1 []
        = List.zipWith (fun x e => x * Real.exp (-e)) (tC4w.getD 1 [])
            (tC4w.getD 3 [])) ∧
      ((1 : ℕ) = 0 → t'.getD 0 []
        = List.zipWith (fun x e => x * Real.exp (-e)) (tC4w.getD 0 [])
            (tC4w.getD 3 [])) ∧
      (∀ j, ((0 : ℕ) = 0 → j ≠ 1) → ((1 : ℕ) = 0 → j ≠ 0) →
        t'.getD j [] = tC4w.getD j []) ∧
      (∀ x e : ℝ, 0 ≤ e →
        |x * Real.exp (-e)| ≤ |x| ∧
        (|x * Real.exp (-e)| = |x| ↔ e = 0 ∨ x = 0))) ∧
    (∃ t', applyExtRows (fun x e => x * Real.exp (-e)) axC4p tC4w 1 0 0
        = .ok t' ∧
      ((1 : ℕ) = 0 → t'.getD 0 []
        = List.zipWith (fun x e => x * Real.exp (-e)) (tC4w.getD 0 [])
            (tC4w.getD 2 [])) ∧
      ((0 : ℕ) = 0 → t'.getD 1 []
        = List.zipWith (fun x e => x * Real.exp (-e)) (tC4w.getD 1 [])
            (tC4w.getD 2 [])) ∧
      (∀ j, ((1 : ℕ) = 0 → j ≠ 0) → ((0 : ℕ) = 0 → j ≠ 1) →
        t'.getD j [] = tC4w.getD j []) ∧
      (∀ x e : ℝ, 0 ≤ e →
        |x * Real.exp (-e)| ≤ |x| ∧
        (|x * Real.exp (-e)| = |x| ↔ e = 0 ∨ x = 0))) :=
  ⟨claim_C4 tC4w axC4w 0 0 1 2 3 (fun _ => rfl) (fun _ => rfl) rfl
      (fun _ _ => by decide) (fun _ => by decide)
      (fun _ => by simp [tC4w]) (fun _ => by simp [tC4w]),
   claim_C4 tC4w axC4 0 1 1 0 3 (fun _ => rfl)
      (fun h => absurd h (by decide)) rfl (fun _ h => absurd h (by decide))
      (fun _ => by decide)
      (fun _ => by simp [tC4w]) (fun h => absurd h (by decide)),
   claim_C4 tC4w axC4p 1 0 0 1 2 (fun h => absurd h (by decide))
      (fun _ => rfl) rfl (fun h => absurd h (by decide))
      (fun h => absurd h (by decide))
      (fun h => absurd h (by decide)) (fun _ => by simp [tC4w])⟩

set_option maxHeartbeats 4000000 in
set_option maxRecDepth 100000 in
/-- C1 counterexample: a job file whose EPS menu has *zero* active
(uncommented) candidates — pattern `0`, shown literally in the first
conjunct — does **not** make parsing fail: `parseEPS` succeeds and stores
`0.0`.  So "zero active candidates ⟹ ConfigInvariantViolation" is false on
the code. -/
theorem claim_C1_counterexample :
    mkEpsJobf 0 = chars
      "set MSTAR='1.0'\n#set EPS='0.0001'\n#set EPS='0.001'\n#set EPS='0.01'\n#set EPS='0.1'\n#set EPS='0.3'\n#set EPS='0.5'\n#set EPS='1.0'\n#end\n"
      ∧
    parseEPS (chars "001") (mkEpsJobf 0) = .ok 0 := by
  constructor
  · decide
  · decide

set_option maxHeartbeats 16000000 in
set_option maxRecDepth 100000 in
/-- C1 amended: over every activity pattern of a well-formed EPS menu the
parser never raises — it stores `epsSelected p` (the candidate *before*
the last active line, `0.0` for zero active candidates, with multiple
active candidates resolved last-wins) — and the AMAXS scan behaves the
same way on every single-candidate pattern, on the zero-active pattern,
and on a two-active pattern, never raising. -/
theorem claim_C1 :
    (∀ p : ℕ, p < 128 →
      parseEPS (chars "001") (mkEpsJobf p) = .ok (epsSelected p)) ∧
    (∀ k : ℕ, k < 10 →
      parseAMAXS (mkAmaxJobf (2 ^ k)) = .ok (amaxSelected (2 ^ k))) ∧
    parseAMAXS (mkAmaxJobf 0) = .ok 0 ∧
    parseAMAXS (mkAmaxJobf 6) = .ok (amaxSelected 6) := by
  refine ⟨?_, ?_, ?_, ?_⟩
  · decide
  · decide
  · decide
  · decide

set_option maxHeartbeats 4000000 in
set_option maxRecDepth 100000 in
/-- Witness for C1: the pattern with exactly the third candidate active
(bit 2) parses without error, storing the *second* candidate's value
`0.001`. -/
theorem claim_C1_witness :
    (4 : ℕ) < 128 ∧
    parseEPS (chars "001") (mkEpsJobf 4) = .ok (mkRat 1 1000) :=
  ⟨by decide, (claim_C1.1 4 (by decide)).trans (by decide)⟩

end Collate
